import Mathlib

/-!
Shallow embedding of the per-tick decision engine in `src/my-bot/bot.py`
(Coveo Blitz bot v8), together with theorems settling the frozen claims.

Modelling conventions:
* Python integers are `Int`; Python `//` is `Int.fdiv` (floor division) and
  `%` is `Int.emod` (they agree with Python's semantics for the moduli used).
* Python `float` values (the true divisions `my_tile_count / total_tiles` and
  `profit / (dist + 1)`, and the wall-clock budget) are modelled as `Rat`;
  for the integer magnitudes occurring in the program the comparisons agree
  with IEEE double comparisons.
* Python `dict`s are association lists with insertion-order semantics
  (`dget` / `dset` / `dfind`); `set`s are duplicate-free `List String`s
  (`sInsert`).
* The wall-clock function `time_left()` is modelled as a stream
  `tl : Nat → Int` of remaining integral microseconds, consumed one value per
  call through a threaded call counter (an order-preserving rescaling of the
  source's float seconds: the cutoffs 0.002/0.003/0.005/0.010/0.0 become
  2000/3000/5000/10000/0).
* Python list indexing is modelled by total lookups (`lget`) that default to
  `0` outside the valid (possibly negative, wrapping) index range; all
  lookups performed by the engine on well-formed snapshots are in range.
* `print` calls are side-effect free and are omitted.
-/

/-- Grid coordinate, mirroring `Point` / `Position` in `bot.py`. -/
structure Point where
  x : Int
  y : Int
deriving DecidableEq, Repr

/-- Cardinal directions `DIRS` (UP, DOWN, LEFT, RIGHT). -/
def DIRS : List Point := [⟨0, -1⟩, ⟨0, 1⟩, ⟨-1, 0⟩, ⟨1, 0⟩]

/-- `_in_bounds(x, y, width, height)`. -/
def inBounds (x y width height : Int) : Bool :=
  decide (0 ≤ x ∧ x < width ∧ 0 ≤ y ∧ y < height)

/-- `_manhattan(a, b)`. -/
def manhattan (a b : Point) : Int :=
  (a.x - b.x).natAbs + (a.y - b.y).natAbs

/-- Python floor division `//`. -/
def pydiv (a b : Int) : Int := Int.fdiv a b

/-- Python `%` (for the positive moduli used it agrees with `Int.emod`). -/
def pymod (a b : Int) : Int := Int.emod a b

/-- Python `dict.get(k, dflt)` over an insertion-ordered association list. -/
def dget {κ α : Type} [DecidableEq κ] : List (κ × α) → κ → α → α
  | [], _, dflt => dflt
  | kv :: rest, k, dflt => if kv.1 = k then kv.2 else dget rest k dflt

/-- Python `dict.get(k)` returning `None` when absent. -/
def dfind {κ α : Type} [DecidableEq κ] : List (κ × α) → κ → Option α
  | [], _ => none
  | kv :: rest, k => if kv.1 = k then some kv.2 else dfind rest k

/-- Python `k in dict`. -/
def dmem {κ α : Type} [DecidableEq κ] (m : List (κ × α)) (k : κ) : Bool :=
  (dfind m k).isSome

/-- Python `dict[k] = v`: replace in place if present, else append. -/
def dset {κ α : Type} [DecidableEq κ] : List (κ × α) → κ → α → List (κ × α)
  | [], k, v => [(k, v)]
  | kv :: rest, k, v => if kv.1 = k then (k, v) :: rest else kv :: dset rest k v

/-- Python `dict.pop(k, None)`. -/
def dpop {κ α : Type} [DecidableEq κ] (m : List (κ × α)) (k : κ) : List (κ × α) :=
  m.filter (fun kv => decide (kv.1 ≠ k))

/-- Python `set.add` (sets are duplicate-free lists queried by membership). -/
def sInsert (s : List String) (x : String) : List String :=
  if x ∈ s then s else x :: s

/-- Python list indexing with negative-index wrap, defaulting to `dflt`
out of range (Python would raise; the engine never indexes out of range). -/
def lget {α : Type} (l : List α) (i : Int) (dflt : α) : α :=
  if 0 ≤ i then l.getD i.toNat dflt
  else l.getD (l.length - (-i).toNat) dflt

/-- 2-D grid lookup `grid[p.y][p.x]`. -/
def gridAt (g : List (List Int)) (p : Point) : Int :=
  lget (lget g p.y []) p.x 0

/-- Stable insertion of `x` into `l` before the first `y` with `le x y`. -/
def insSorted {α : Type} (le : α → α → Bool) (x : α) : List α → List α
  | [] => [x]
  | y :: ys => if le x y then x :: y :: ys else y :: insSorted le x ys

/-- Stable sort (same result as Python's stable `list.sort`). -/
def ssort {α : Type} (le : α → α → Bool) (l : List α) : List α :=
  l.foldr (insSorted le) []

/-- Python `min(l, key=f)`: the first element attaining the minimum key. -/
def pyMinBy {α : Type} (f : α → Int) : List α → Option α
  | [] => none
  | x :: xs => some (xs.foldl (fun b a => if f a < f b then a else b) x)

/-- Python `max(l, key=f)`: the first element attaining the maximum key. -/
def pyMaxBy {α : Type} (f : α → Int) : List α → Option α
  | [] => none
  | x :: xs => some (xs.foldl (fun b a => if f a > f b then a else b) x)

/-- Python `max(gen, default=d)` for integer values. -/
def pyMaxD (l : List Int) (d : Int) : Int :=
  match l with
  | [] => d
  | x :: xs => xs.foldl max x

/-- A mobile unit ("spore"). -/
structure Spore where
  id : String
  position : Point
  biomass : Int
  teamId : Int
deriving DecidableEq, Repr

/-- A production facility ("spawner"). -/
structure Spawner where
  id : String
  position : Point
  teamId : Int
deriving DecidableEq, Repr

/-- Per-team snapshot data (`TeamInfo`). -/
structure TeamInfo where
  spores : List Spore
  spawners : List Spawner
  nutrients : Int
  nextSpawnerCost : Int
deriving DecidableEq, Repr

/-- The per-tick snapshot consumed by `get_next_move`.
`teamInfos` is the `world.teamInfos` dict (keyed by team id). -/
structure GameMessage where
  tick : Int
  yourTeamId : Int
  width : Int
  height : Int
  nutrientGrid : List (List Int)
  ownershipGrid : List (List Int)
  biomassGrid : List (List Int)
  worldSpores : List Spore
  teamInfos : List (Int × TeamInfo)
  lastTickErrors : List String
deriving DecidableEq, Repr

/-- The discrete actions the bot can emit. -/
inductive BotAction where
  | spawnerProduceSpore (spawnerId : String) (biomass : Int)
  | sporeCreateSpawner (sporeId : String)
  | sporeMove (sporeId : String) (direction : Point)
  | sporeMoveTo (sporeId : String) (position : Point)
  | sporeSplit (sporeId : String) (biomassForMovingSpore : Int) (direction : Point)
deriving DecidableEq, Repr

/-- The spore id an action is addressed to, if any. -/
def actionSporeId : BotAction → Option String
  | .spawnerProduceSpore _ _ => none
  | .sporeCreateSpawner i => some i
  | .sporeMove i _ => some i
  | .sporeMoveTo i _ => some i
  | .sporeSplit i _ _ => some i

/-- The spawner id an action is addressed to, if any. -/
def actionSpawnerId : BotAction → Option String
  | .spawnerProduceSpore i _ => some i
  | _ => none

/-- Spore ids addressed by a list of actions. -/
def sporeIdsOf (l : List BotAction) : List String := l.filterMap actionSporeId

/-- Spawner ids addressed by a list of actions. -/
def spawnerIdsOf (l : List BotAction) : List String := l.filterMap actionSpawnerId

/-- The cross-tick mutable state of the `Bot` instance (fields of
`Bot.__init__`, the states of its `LanePlanner` / `ImprovedMapAnalysis` /
`ExpansionEnhancement` helpers, and the module-level
`_GLOBAL_TOP_TILES_CACHE`). -/
structure BotState where
  mapType : String
  cachedMapKey : Option (Int × Int)
  topTilesCache : List Point
  globalTopTiles : List ((Int × Int) × List Point)
  plannedSites : List (String × Point)
  builderTargetById : List (String × Point)
  firstSpawnerTick : Option Int
  tickCount : Int
  initialSporeCount : Option Int
  totalSporeCount : Option Int
  posHistById : List (String × List Point)
  cachedMyTileCount : Int
  cachedNutrientGeneration : Int
  lastFullScanTick : Int
  laneTargets : List (String × (Point × Int))
  laneBySporeId : List (String × (String × Int))
  mapTypeCache : List ((Int × Int) × String)
  lastTerritoryCount : Int
  stagnationTicks : Int
  lastGrowthTick : Int
  lastGrowthTerritory : Int
deriving DecidableEq, Repr

/-- `Bot.__init__` (plus the empty module-level tile cache). -/
def initBot : BotState :=
  { mapType := ""
    cachedMapKey := none
    topTilesCache := []
    globalTopTiles := []
    plannedSites := []
    builderTargetById := []
    firstSpawnerTick := none
    tickCount := 0
    initialSporeCount := none
    totalSporeCount := none
    posHistById := []
    cachedMyTileCount := 0
    cachedNutrientGeneration := 0
    lastFullScanTick := 0
    laneTargets := []
    laneBySporeId := []
    mapTypeCache := []
    lastTerritoryCount := 0
    stagnationTicks := 0
    lastGrowthTick := 0
    lastGrowthTerritory := 0 }

/-- Python `self._total_spore_count or 3` (`None` and `0` are falsy). -/
def totalSporeCountOr3 (st : BotState) : Int :=
  match st.totalSporeCount with
  | none => 3
  | some v => if v = 0 then 3 else v

/-- `LanePlanner._lane_of`. -/
def laneOf (pt center : Point) : String :=
  if pt.y < center.y then (if pt.x < center.x then "NW" else "NE")
  else (if pt.x < center.x then "SW" else "SE")

/-- `LanePlanner.assign_lane` (reads and mutates `_lane_by_spore_id`). -/
def assignLane (st : BotState) (sporeId : String) (spPt center : Point)
    (tick : Int) : String × BotState :=
  match dfind st.laneBySporeId sporeId with
  | some (lane, expiry) =>
    if tick ≤ expiry then (lane, st)
    else
      let lane2 := laneOf spPt center
      (lane2, { st with laneBySporeId := dset st.laneBySporeId sporeId (lane2, tick + 25) })
  | none =>
    let lane2 := laneOf spPt center
    (lane2, { st with laneBySporeId := dset st.laneBySporeId sporeId (lane2, tick + 25) })

/-- `LanePlanner.pick_lane_targets`. -/
def pickLaneTargets (st : BotState) (topTiles : List Point) (center : Point)
    (width height tick : Int) (isStagnant : Bool)
    (tileValue tileOwner threatAt : Point → Int) (myTeamId : Int) :
    List (String × Point) × BotState :=
  let ttl : Int := if isStagnant then 18 else 10
  let scanK : Nat := if isStagnant then 140 else 110
  let _ := (width, height)
  let kept := st.laneTargets.filter (fun kv => decide (tick ≤ kv.2.2))
  let out0 : List (String × Point) := kept.map (fun kv => (kv.1, kv.2.1))
  let need := ["NW", "NE", "SW", "SE"].filter (fun l => ¬ dmem out0 l)
  if need = [] then (out0, { st with laneTargets := kept })
  else
    let best : List (String × (Int × Point)) :=
      (topTiles.take scanK).foldl (fun best pt =>
        if tileOwner pt = myTeamId ∧ manhattan pt center ≤ 3 then best
        else if threatAt pt ≥ 8 then best
        else
          let lane := laneOf pt center
          if lane ∉ need then best
          else
            let tv := tileValue pt
            let dist := manhattan pt center
            let score := tv * 6 + dist * (if isStagnant then 22 else 14) +
              (if tileOwner pt ≠ myTeamId then 120 else 0)
            match dfind best lane with
            | none => dset best lane (score, pt)
            | some prev => if score > prev.1 then dset best lane (score, pt) else best) []
    let filled := need.foldl (fun (acc : List (String × Point) × List (String × (Point × Int))) lane =>
      match dfind best lane with
      | some sp => (dset acc.1 lane sp.2, dset acc.2 lane (sp.2, tick + ttl))
      | none => acc) (out0, kept)
    (filled.1, { st with laneTargets := filled.2 })

/-- `ImprovedMapAnalysis.analyze_map_type` (cached per `(width, height)`). -/
def analyzeMapType (st : BotState) (width height : Int)
    (neutralSpores : List (Point × Int)) (mySporeCount : Int)
    (nutrientGrid : List (List Int)) : String × BotState :=
  let key := (width, height)
  let _ := (mySporeCount, nutrientGrid)
  match dfind st.mapTypeCache key with
  | some mt => (mt, st)
  | none =>
    let area := width * height
    let centerX := pydiv width 2
    let centerY := pydiv height 2
    let centerNeutrals : Int :=
      ((neutralSpores.filter (fun nb =>
        decide ((nb.1.x - centerX).natAbs ≤ 3 ∧ (nb.1.y - centerY).natAbs ≤ 3))).length : Int)
    let totalNeutrals : Int := (neutralSpores.length : Int)
    let mapType :=
      if area ≤ 225 then
        if centerNeutrals ≥ 5 ∨ totalNeutrals ≥ 8 then "blocked_small" else "open_rush"
      else if area ≤ 900 then "medium"
      else "large"
    (mapType, { st with mapTypeCache := dset st.mapTypeCache key mapType })

/-- `ImprovedMapAnalysis.should_build_first_spawner_v8`.
The local `is_emergency` of the source is dead (every return hardcodes the
flag), and `total_spore_count`, `neutral_count`, `my_nutrients` are unused
there; all are kept for signature fidelity. -/
def shouldBuildFirstSpawnerV8 (mapType : String)
    (tick actionableCount maxBiomass nextSpawnerCost
     totalSporeCount neutralCount myNutrients : Int) : Bool × Int × Bool :=
  let _isEmergency : Prop :=
    tick ≥ 18 ∨ (tick ≥ 12 ∧ actionableCount ≤ 2) ∨
      (tick ≥ 10 ∧ maxBiomass ≥ nextSpawnerCost * 2)
  let _ := (totalSporeCount, neutralCount, myNutrients)
  if mapType = "blocked_small" then
    if tick ≤ 8 then
      if actionableCount ≥ 2 ∧ maxBiomass ≥ nextSpawnerCost + 2 then
        (true, nextSpawnerCost + 2, false)
      else (false, 0, false)
    else if tick ≤ 15 then
      if actionableCount ≥ 1 ∧ maxBiomass ≥ nextSpawnerCost then
        (true, nextSpawnerCost, false)
      else (false, 0, false)
    else
      if actionableCount ≥ 1 ∧ maxBiomass ≥ max 2 nextSpawnerCost then
        (true, max 2 nextSpawnerCost, true)
      else (false, 0, false)
  else if mapType = "medium" ∨ mapType = "large" then
    if tick ≤ 5 then
      if actionableCount ≥ 1 ∧ maxBiomass ≥ nextSpawnerCost then
        (true, nextSpawnerCost, false)
      else (false, 0, false)
    else if tick ≤ 12 then
      if actionableCount ≥ 1 ∧ maxBiomass ≥ max 3 nextSpawnerCost then
        (true, max 3 nextSpawnerCost, false)
      else (false, 0, false)
    else
      if actionableCount ≥ 1 ∧ maxBiomass ≥ max 2 nextSpawnerCost then
        (true, max 2 nextSpawnerCost, true)
      else (false, 0, false)
  else
    if tick ≤ 6 then
      if actionableCount ≥ 2 ∧ maxBiomass ≥ nextSpawnerCost + 1 then
        (true, nextSpawnerCost + 1, false)
      else (false, 0, false)
    else if tick ≤ 12 then
      if actionableCount ≥ 1 ∧ maxBiomass ≥ nextSpawnerCost then
        (true, nextSpawnerCost, false)
      else (false, 0, false)
    else
      if actionableCount ≥ 1 ∧ maxBiomass ≥ max 2 nextSpawnerCost then
        (true, max 2 nextSpawnerCost, true)
      else (false, 0, false)

/-- `ExpansionEnhancement.detect_expansion_stagnation`
(`check_interval` is always the default 20 at the call site). -/
def detectExpansionStagnation (st : BotState) (currentTerritory tick : Int) :
    Bool × BotState :=
  let st' :=
    if pymod tick 20 = 0 then
      { st with
        stagnationTicks :=
          if currentTerritory ≤ st.lastTerritoryCount + 2 then st.stagnationTicks + 20 else 0
        lastTerritoryCount := currentTerritory }
    else st
  (decide (st'.stagnationTicks ≥ 40), st')

/-- `ExpansionEnhancement.improved_2biomass_penalty`
(`control_rate` is a Python float; exact rational here). -/
def improved2BiomassPenalty (mapType : String)
    (tick myTileCount totalTiles spawnerCount : Int) (isStagnant : Bool)
    (nutrientGeneration : Int) : Int :=
  let controlRate : Rat :=
    if totalTiles > 0 then (myTileCount : Rat) / (totalTiles : Rat) else 0
  if isStagnant then 50
  else if tick < 100 then
    if nutrientGeneration < 10 then 80
    else if mapType = "blocked_small" then 120
    else 150
  else if tick < 300 then
    if nutrientGeneration < 20 then 150
    else if controlRate < 1/4 then 200
    else 350
  else if tick < 600 then
    if controlRate < 2/5 then 300 else 500
  else if spawnerCount ≥ 2 then 800
  else 600

/-- `ExpansionEnhancement.aggressive_spawner_production`. -/
def aggressiveSpawnerProduction (tick localThreat sporeCount nutrients
    myTerritoryCount totalTiles : Int) (isStagnant : Bool)
    (nutrientGeneration : Int) : Int :=
  let controlRate : Rat :=
    if totalTiles > 0 then (myTerritoryCount : Rat) / (totalTiles : Rat) else 0
  if isStagnant ∧ nutrients ≥ 30 then min (pydiv nutrients 3) 15
  else if tick < 150 then
    if sporeCount < 10 then max 8 (pydiv nutrients 6)
    else if sporeCount < 20 then max 6 (pydiv nutrients 8)
    else max 4 (pydiv nutrients 10)
  else if tick < 400 then
    if nutrientGeneration < 15 then max 5 (pydiv nutrients 10)
    else if nutrientGeneration < 30 then max 6 (pydiv nutrients 8)
    else max 7 (pydiv nutrients 7)
  else if tick < 700 then
    if localThreat > 0 then max (localThreat + 3) 8
    else if controlRate < 2/5 then max 8 (pydiv nutrients 6)
    else max 6 (pydiv nutrients 8)
  else
    if nutrients ≥ 2000 then min 15 (pydiv nutrients 5)
    else if nutrients ≥ 1000 then min 12 (pydiv nutrients 6)
    else if localThreat > 0 then max (localThreat + 3) 8
    else max 7 (pydiv nutrients 8)

/-- `ImprovedSiteSelection.score_spawner_site`. -/
def scoreSpawnerSite (pt : Point)
    (tileValue tileOwner tileBiomass threatAt : Point → Int)
    (enemyDensity : Point → Int → Int) (minEnemyDistFn adjacentEnemyMaxFn : Point → Int)
    (builderBiomass myTeamId : Int) (isSecondSpawner : Bool)
    (spawnerPositions : List Point) (tick : Int) (mapType : String)
    (isEmergency : Bool) : Int :=
  let score1 := tileValue pt * 5
  let owner := tileOwner pt
  let score2 := score1 + (if owner = myTeamId then 100 else 0)
  let biomass := tileBiomass pt
  let score3 := score2 - (if biomass > 0 ∧ owner ≠ myTeamId then 500 else 0)
  let threat := threatAt pt
  let score4 := score3 -
    (if isEmergency then
       (if threat ≥ builderBiomass then 400 else threat * 15)
     else
       let safetyMargin : Int := if builderBiomass ≥ 6 then 2 else 1
       (if threat ≥ builderBiomass - safetyMargin then 250 else threat * 25))
  let adjThreat := adjacentEnemyMaxFn pt
  let score5 := score4 -
    (if isEmergency then adjThreat * 10
     else if adjThreat > 0 ∧ builderBiomass ≤ adjThreat then 200
     else adjThreat * 20)
  let enemyDens := enemyDensity pt 5
  let score6 := score5 -
    (if mapType = "open_rush" ∨ mapType = "blocked_small" ∨ mapType = "medium" then
       (if tick ≤ 15 then enemyDens * 40
        else if tick ≤ 30 then enemyDens * 25
        else enemyDens * 15)
     else enemyDens * 10)
  let minDist := minEnemyDistFn pt
  let score7 := score6 + min (minDist * 8) 200
  let score8 := score7 +
    (if isSecondSpawner ∧ spawnerPositions ≠ [] then
       manhattan pt (spawnerPositions.headD ⟨0, 0⟩) * 6
     else 0)
  score8 - (if pt ∈ spawnerPositions then 10000 else 0)

/-- `ImprovedSiteSelection.select_best_site`. -/
def selectBestSite (candidateTiles : List Point)
    (tileValue tileOwner tileBiomass threatAt : Point → Int)
    (enemyDensity : Point → Int → Int) (minEnemyDistFn adjacentEnemyMaxFn : Point → Int)
    (builderBiomass myTeamId : Int) (isSecondSpawner : Bool)
    (spawnerPositions : List Point) (tick : Int) (mapType : String)
    (isEmergency : Bool) : Option Point :=
  (candidateTiles.foldl (fun (acc : Option Point × Int) pt =>
    if pt ∈ spawnerPositions then acc
    else
      let score := scoreSpawnerSite pt tileValue tileOwner tileBiomass threatAt
        enemyDensity minEnemyDistFn adjacentEnemyMaxFn builderBiomass myTeamId
        isSecondSpawner spawnerPositions tick mapType isEmergency
      if score > acc.2 then (some pt, score) else acc) (none, -(10 ^ 9 : Int))).1

/-- The per-spore candidate-scoring body of
`ImprovedBuilderSelection.select_builder_progressive`. -/
def builderCandidateStep (site : Point) (nextSpawnerCost : Int)
    (avoidIds usedSpores : List String) (threatAt : Point → Int)
    (isEmergency : Bool) (cands : List (Int × Spore)) (sp : Spore) :
    List (Int × Spore) :=
  if sp.id ∈ avoidIds ∨ sp.id ∈ usedSpores then cands
  else if sp.biomass < nextSpawnerCost then cands
  else
    let score2 := 0 - manhattan sp.position site * 100 +
      (sp.biomass - nextSpawnerCost) * 5
    let spThreat := threatAt sp.position
    let score3 :=
      if isEmergency then (if spThreat < sp.biomass then score2 + 50 else score2)
      else if spThreat = 0 then score2 + 100
      else if spThreat < sp.biomass - 2 then score2 + 50
      else score2 - 100
    cands ++ [(score3, sp)]

/-- `ImprovedBuilderSelection.select_builder_progressive`. -/
def selectBuilderProgressive (site : Point) (actionableSpores : List Spore)
    (nextSpawnerCost : Int) (avoidIds usedSpores : List String)
    (threatAt : Point → Int) (tick : Int) (isEmergency : Bool) : Option Spore :=
  let _ := tick
  match ssort (fun a b => decide (a.1 ≥ b.1))
      (actionableSpores.foldl
        (builderCandidateStep site nextSpawnerCost avoidIds usedSpores threatAt
          isEmergency) []) with
  | [] => none
  | c :: _ => some c.2

/-- `Bot.enemy_density_in_radius`. -/
def enemyDensityInRadius (center : Point) (enemyMap : List (Point × Int))
    (radius : Int) : Int :=
  ((enemyMap.filter (fun kv => decide (manhattan center kv.1 ≤ radius))).length : Int)

/-- The full-grid scan inside `Bot._ensure_top_tiles_cache`
(`self._top_tiles_k` is fixed at 400). -/
def computeTopTiles (width height : Int) (nutrientGrid : List (List Int)) :
    List Point :=
  let pts := ((List.range height.toNat).map (fun y =>
    (List.range width.toNat).map (fun x => Point.mk (x : Int) (y : Int)))).flatten
  (ssort (fun a b => decide (gridAt nutrientGrid a ≥ gridAt nutrientGrid b)) pts).take 400

/-- `Bot._ensure_top_tiles_cache` (the module-level cache lives in the state). -/
def ensureTopTilesCache (st : BotState) (width height : Int)
    (nutrientGrid : List (List Int)) : BotState :=
  let key := (width, height)
  let hit : Bool :=
    match dfind st.globalTopTiles key with
    | some pts => decide (pts ≠ [])
    | none => false
  if hit then
    { st with
        cachedMapKey := some key
        topTilesCache := (dfind st.globalTopTiles key).getD [] }
  else if st.cachedMapKey = some key ∧ st.topTilesCache ≠ [] then
    { st with globalTopTiles := dset st.globalTopTiles key st.topTilesCache }
  else
    let pts := computeTopTiles width height nutrientGrid
    { st with
        cachedMapKey := some key
        topTilesCache := pts
        globalTopTiles := dset st.globalTopTiles key pts }

/-- `Bot._get_enemy_positions`. -/
def getEnemyPositions (worldSpores : List Spore) (myTeamId : Int) :
    List (Point × Int) × List (Point × Int) :=
  let enemyBiomassAt := worldSpores.foldl (fun m sp =>
    if sp.teamId = myTeamId ∨ sp.teamId = 0 then m
    else dset m sp.position (max (dget m sp.position 0) sp.biomass)) []
  (enemyBiomassAt, ssort (fun a b => decide (a.2 ≥ b.2)) enemyBiomassAt)

/-- `Bot._get_neutral_positions`. -/
def getNeutralPositions (worldSpores : List Spore) : List (Point × Int) :=
  (worldSpores.filter (fun sp => decide (sp.teamId = 0))).map
    (fun sp => (sp.position, sp.biomass))

/-- One max-update of the threat map (the `if eb > prev` pattern). -/
def threatInsert (tm : List (Point × Int)) (pt : Point) (eb : Int) :
    List (Point × Int) :=
  if eb > dget tm pt 0 then dset tm pt eb else tm

/-- The body of the loop in `Bot._build_threat_map` for one enemy entry. -/
def processEnemyThreat (width height : Int) (tm : List (Point × Int))
    (e : Point × Int) : List (Point × Int) :=
  let tm1 := threatInsert tm e.1 e.2
  DIRS.foldl (fun tm2 d =>
    let nx := e.1.x + d.x
    let ny := e.1.y + d.y
    if inBounds nx ny width height then threatInsert tm2 ⟨nx, ny⟩ e.2 else tm2) tm1

/-- `Bot._build_threat_map`. -/
def buildThreatMap (enemyBiomassAt : List (Point × Int)) (width height : Int) :
    List (Point × Int) :=
  enemyBiomassAt.foldl (processEnemyThreat width height) []

/-- `Bot._calculate_my_center`. -/
def calculateMyCenter (spawnerPositions : List Point) (mySpores : List Spore)
    (width height : Int) : Point :=
  match spawnerPositions with
  | p :: _ => p
  | [] =>
    let myPositions := (mySpores.filter (fun s => decide (s.biomass ≥ 2))).map (·.position)
    match myPositions with
    | [] => ⟨pydiv width 2, pydiv height 2⟩
    | _ :: _ =>
      ⟨pydiv (myPositions.foldl (fun a p => a + p.x) 0) (myPositions.length : Int),
       pydiv (myPositions.foldl (fun a p => a + p.y) 0) (myPositions.length : Int)⟩

/-- `Bot._update_position_history` (deques of `maxlen` 4). -/
def updatePositionHistory (st : BotState) (mySpores : List Spore) : BotState :=
  let liveIds := mySpores.map (·.id)
  let h2 := mySpores.foldl (fun h s =>
    let dq := dget h s.id []
    let dq2 := if dq.length ≥ 4 then dq.drop 1 ++ [s.position] else dq ++ [s.position]
    dset h s.id dq2) st.posHistById
  { st with posHistById := h2.filter (fun kv => decide (kv.1 ∈ liveIds)) }

/-- The full scan inside `Bot._calculate_territory_metrics`. -/
def scanTerritory (width height : Int) (ownershipGrid nutrientGrid : List (List Int))
    (myTeamId : Int) : Int × Int :=
  (List.range height.toNat).foldl (fun acc y =>
    (List.range width.toNat).foldl (fun acc2 x =>
      if lget (lget ownershipGrid (y : Int) []) (x : Int) 0 = myTeamId then
        (acc2.1 + 1, acc2.2 + lget (lget nutrientGrid (y : Int) []) (x : Int) 0)
      else acc2) acc) (0, 0)

/-- `Bot._calculate_territory_metrics` (5-tick cached scan). -/
def calculateTerritoryMetrics (st : BotState) (width height : Int)
    (ownershipGrid nutrientGrid : List (List Int)) (myTeamId tick : Int) :
    (Int × Int) × BotState :=
  if tick ≤ 3 ∨ tick - st.lastFullScanTick ≥ 5 then
    let m := scanTerritory width height ownershipGrid nutrientGrid myTeamId
    (m, { st with
            cachedMyTileCount := m.1
            cachedNutrientGeneration := m.2
            lastFullScanTick := tick })
  else ((st.cachedMyTileCount, st.cachedNutrientGeneration), st)

/-- `Bot._min_enemy_dist` (`sample_cap` is always the default 60; the early
break at distance 0 does not change the computed minimum). -/
def minEnemyDist (pt : Point) (enemyList : List (Point × Int)) : Int :=
  match enemyList with
  | [] => 999
  | _ :: _ => (enemyList.take 60).foldl (fun m e => min m (manhattan pt e.1)) 999

/-- `Bot._adjacent_enemy_max`. -/
def adjacentEnemyMax (pt : Point) (enemyBiomassAt : List (Point × Int)) : Int :=
  DIRS.foldl (fun m d => max m (dget enemyBiomassAt ⟨pt.x + d.x, pt.y + d.y⟩ 0)) 0

/-- Result of a builder phase (`_build_first_spawner` / `_build_second_spawner`):
the mutated `used_spores`, `builder_ids`, `actions` and bot state. -/
structure BuildResult where
  usedSpores : List String
  builderIds : List String
  actions : List BotAction
  st : BotState
deriving Repr

/-- `Bot._build_first_spawner`. -/
def buildFirstSpawner (gm : GameMessage) (myTeam : TeamInfo)
    (actionableSpores : List Spore) (spawnerPts : List Point)
    (enemyBiomassAt enemyList threatMap : List (Point × Int))
    (tileValue tileOwner tileBiomass : Point → Int)
    (usedSpores builderIds : List String) (actions : List BotAction)
    (st : BotState) : BuildResult :=
  if actionableSpores = [] then ⟨usedSpores, builderIds, actions, st⟩
  else
    let nextSpawnerCost := myTeam.nextSpawnerCost
    let dec := shouldBuildFirstSpawnerV8 st.mapType st.tickCount
      (actionableSpores.length : Int) (pyMaxD (actionableSpores.map (·.biomass)) 0)
      nextSpawnerCost (myTeam.spores.length : Int) 0 myTeam.nutrients
    let shouldBuild := dec.1
    let minNeeded := dec.2.1
    let isEmergency := dec.2.2
    if ¬ shouldBuild then ⟨usedSpores, builderIds, actions, st⟩
    else
      let hintBiomass :=
        if st.mapType = "blocked_small" then max minNeeded 4
        else if totalSporeCountOr3 st ≤ 3 then max minNeeded 3
        else max minNeeded 6
      let locked1 : Option Point :=
        match dfind st.plannedSites "first" with
        | some l =>
          if l ∈ spawnerPts then none
          else if tileBiomass l ≠ 0 ∧ tileOwner l ≠ gm.yourTeamId then none
          else some l
        | none => none
      let threatAt := fun pt => dget threatMap pt 0
      let siteSel : Option Point × BotState :=
        match locked1 with
        | some l => (some l, st)
        | none =>
          let candidatePool := st.topTilesCache.take 80
          let sel := selectBestSite candidatePool tileValue tileOwner tileBiomass
            threatAt (fun pt r => enemyDensityInRadius pt enemyBiomassAt r)
            (fun pt => minEnemyDist pt enemyList)
            (fun pt => adjacentEnemyMax pt enemyBiomassAt)
            hintBiomass gm.yourTeamId false spawnerPts st.tickCount st.mapType isEmergency
          let sel2 :=
            if sel = none ∧ isEmergency ∧ st.topTilesCache ≠ [] then
              (st.topTilesCache.take 20).find? (fun pt => decide (pt ∉ spawnerPts))
            else sel
          match sel2 with
          | some l => (some l, { st with plannedSites := dset st.plannedSites "first" l })
          | none => (none, st)
      match siteSel with
      | (none, st1) => ⟨usedSpores, builderIds, actions, st1⟩
      | (some locked, st1) =>
        let builder0 := selectBuilderProgressive locked actionableSpores minNeeded []
          usedSpores threatAt st1.tickCount isEmergency
        let builder1 :=
          match builder0 with
          | some b => some b
          | none =>
            if isEmergency then
              selectBuilderProgressive locked actionableSpores 2 [] usedSpores threatAt
                st1.tickCount true
            else none
        let builder2 :=
          match builder1 with
          | some b => some b
          | none =>
            if isEmergency ∧ actionableSpores ≠ [] then
              pyMaxBy (·.biomass)
                (actionableSpores.filter (fun s => decide (s.id ∉ usedSpores)))
            else none
        match builder2 with
        | none => ⟨usedSpores, builderIds, actions, st1⟩
        | some builder =>
          let builderIds2 := sInsert builderIds builder.id
          let st2 := { st1 with
            builderTargetById := dset st1.builderTargetById builder.id locked }
          if builder.position = locked then
            if builder.biomass ≥ nextSpawnerCost then
              ⟨sInsert usedSpores builder.id, builderIds2,
               actions ++ [.sporeCreateSpawner builder.id], st2⟩
            else ⟨usedSpores, builderIds2, actions, st2⟩
          else
            ⟨sInsert usedSpores builder.id, builderIds2,
             actions ++ [.sporeMoveTo builder.id locked], st2⟩

/-- The `should_build` flag of `_build_second_spawner` (a plain boolean in the
Python code). -/
def secondSpawnerShouldBuild (myTeam : TeamInfo) (myTileCount totalTiles : Int)
    (st : BotState) : Bool :=
  let nutrients := myTeam.nutrients
  let controlRate : Rat :=
    if totalTiles > 0 then (myTileCount : Rat) / (totalTiles : Rat) else 0
  let spawnerAge : Int :=
    match st.firstSpawnerTick with
    | some t => if t = 0 then 0 else st.tickCount - t
    | none => 0
  if st.mapType = "large" then
    decide ((controlRate > 12/100 ∧ nutrients ≥ 15) ∨ (nutrients ≥ 20 ∧ spawnerAge > 12) ∨
      spawnerAge > 25)
  else if totalSporeCountOr3 st ≤ 3 then
    decide ((controlRate > 15/100 ∧ nutrients ≥ 10) ∨ (nutrients ≥ 15 ∧ spawnerAge > 10))
  else
    decide ((controlRate > 22/100 ∧ nutrients ≥ 18) ∨ (nutrients ≥ 25 ∧ spawnerAge > 15))

/-- `Bot._build_second_spawner`. -/
def buildSecondSpawner (gm : GameMessage) (myTeam : TeamInfo)
    (actionableSpores : List Spore) (spawnerPts : List Point)
    (enemyBiomassAt enemyList threatMap : List (Point × Int))
    (tileValue tileOwner tileBiomass : Point → Int)
    (usedSpores builderIds : List String) (actions : List BotAction)
    (myTileCount totalTiles : Int) (st : BotState) : BuildResult :=
  if myTeam.spawners.length ≠ 1 then ⟨usedSpores, builderIds, actions, st⟩
  else if actionableSpores = [] then ⟨usedSpores, builderIds, actions, st⟩
  else
    let nextSpawnerCost := myTeam.nextSpawnerCost
    if secondSpawnerShouldBuild myTeam myTileCount totalTiles st then
      let minNeeded2 := nextSpawnerCost + 2
      let hintBiomass2 := max minNeeded2 6
      let locked1 : Option Point :=
        match dfind st.plannedSites "second" with
        | some l =>
          if l ∈ spawnerPts then none
          else if tileBiomass l ≠ 0 ∧ tileOwner l ≠ gm.yourTeamId then none
          else some l
        | none => none
      let threatAt := fun pt => dget threatMap pt 0
      let siteSel : Option Point × BotState :=
        match locked1 with
        | some l => (some l, st)
        | none =>
          let candidatePool := st.topTilesCache.take 80
          let sel := selectBestSite candidatePool tileValue tileOwner tileBiomass
            threatAt (fun pt r => enemyDensityInRadius pt enemyBiomassAt r)
            (fun pt => minEnemyDist pt enemyList)
            (fun pt => adjacentEnemyMax pt enemyBiomassAt)
            hintBiomass2 gm.yourTeamId true spawnerPts st.tickCount st.mapType false
          match sel with
          | some l => (some l, { st with plannedSites := dset st.plannedSites "second" l })
          | none => (none, st)
      match siteSel with
      | (none, st1) => ⟨usedSpores, builderIds, actions, st1⟩
      | (some locked2, st1) =>
        match selectBuilderProgressive locked2 actionableSpores minNeeded2 builderIds
          usedSpores threatAt st1.tickCount false with
        | none => ⟨usedSpores, builderIds, actions, st1⟩
        | some builder2 =>
          let builderIds2 := sInsert builderIds builder2.id
          let st2 := { st1 with
            builderTargetById := dset st1.builderTargetById builder2.id locked2 }
          if builder2.position = locked2 then
            ⟨sInsert usedSpores builder2.id, builderIds2,
             actions ++ [.sporeCreateSpawner builder2.id], st2⟩
          else
            ⟨sInsert usedSpores builder2.id, builderIds2,
             actions ++ [.sporeMoveTo builder2.id locked2], st2⟩
    else ⟨usedSpores, builderIds, actions, st⟩

/-- Result of `_manage_spawner_production`. -/
structure ProdResult where
  usedSpawners : List String
  actions : List BotAction
  nutrients : Int
deriving Repr

/-- The local-threat computation for one spawner in
`_manage_spawner_production`. -/
def spawnerLocalThreat (threatMap enemyBiomassAt : List (Point × Int))
    (width height : Int) (spt : Point) : Int :=
  let lt1 := max (dget threatMap spt 0) (adjacentEnemyMax spt enemyBiomassAt)
  DIRS.foldl (fun lt d =>
    let nx := spt.x + d.x
    let ny := spt.y + d.y
    if inBounds nx ny width height then max lt (dget threatMap ⟨nx, ny⟩ 0) else lt) lt1

/-- The per-spawner body of the `_manage_spawner_production` loop. -/
def productionStep (myTeam : TeamInfo) (threatMap enemyBiomassAt : List (Point × Int))
    (width height myTileCount nutrientGeneration : Int) (isStagnant : Bool)
    (st : BotState) (reserveNutrients : Int) (r : ProdResult) (spawner : Spawner) :
    ProdResult :=
  if spawner.id ∈ r.usedSpawners then r
  else
    let localThreat := spawnerLocalThreat threatMap enemyBiomassAt width height
      spawner.position
    let desired := aggressiveSpawnerProduction st.tickCount localThreat
      (myTeam.spores.length : Int) r.nutrients myTileCount (width * height)
      isStagnant nutrientGeneration
    if r.nutrients - desired < reserveNutrients then r
    else if r.nutrients ≥ desired ∧ desired ≥ 2 then
      { usedSpawners := sInsert r.usedSpawners spawner.id
        actions := r.actions ++ [.spawnerProduceSpore spawner.id desired]
        nutrients := r.nutrients - desired }
    else r

/-- `Bot._manage_spawner_production`. -/
def manageSpawnerProduction (myTeam : TeamInfo) (spawnerPts : List Point)
    (threatMap enemyBiomassAt : List (Point × Int))
    (width height myTileCount nutrientGeneration : Int) (isStagnant : Bool)
    (usedSpawners : List String) (actions : List BotAction) (st : BotState) :
    ProdResult :=
  let _ := spawnerPts
  let reserveNutrients : Int :=
    if totalSporeCountOr3 st ≤ 3 then 2
    else if myTeam.spawners.length ≥ 2 then 3 else 4
  myTeam.spawners.foldl
    (productionStep myTeam threatMap enemyBiomassAt width height myTileCount
      nutrientGeneration isStagnant st reserveNutrients)
    ⟨usedSpawners, actions, myTeam.nutrients⟩

/-- The per-enemy body of the first loop in `_find_combat_targets`. -/
def combatEnemyStep (actionableSpores : List Spore)
    (builderIds usedSpores : List String) (tileValue : Point → Int)
    (ts : List (Point × Int × String × Int)) (e : Point × Int) :
    List (Point × Int × String × Int) :=
  match pyMinBy (fun s => manhattan s.position e.1)
      (actionableSpores.filter (fun s =>
        decide (s.id ∉ builderIds ∧ s.id ∉ usedSpores ∧ s.biomass > e.2 + 1))) with
  | none => ts
  | some nearest =>
    if manhattan nearest.position e.1 ≤ 10 then
      ts ++ [(e.1, tileValue e.1 + e.2, nearest.id, manhattan nearest.position e.1)]
    else ts

/-- The per-neutral body of the second loop in `_find_combat_targets`. -/
def combatNeutralStep (actionableSpores : List Spore)
    (builderIds usedSpores : List String) (tileValue : Point → Int)
    (ts : List (Point × Int × String × Int)) (n : Point × Int) :
    List (Point × Int × String × Int) :=
  match pyMinBy (fun s => manhattan s.position n.1)
      (actionableSpores.filter (fun s =>
        decide (s.id ∉ builderIds ∧ s.id ∉ usedSpores ∧ s.biomass > n.2))) with
  | none => ts
  | some nearest =>
    if manhattan nearest.position n.1 ≤ 8 then
      ts ++ [(n.1, tileValue n.1 + pydiv n.2 2, nearest.id, manhattan nearest.position n.1)]
    else ts

/-- The profit/(distance+1) ranking key comparison of `_find_combat_targets`
(Python float division, exact rational here). -/
def combatRankGE (a b : Point × Int × String × Int) : Bool :=
  decide ((a.2.1 : Rat) / ((a.2.2.2 : Rat) + 1) ≥ (b.2.1 : Rat) / ((b.2.2.2 : Rat) + 1))

/-- `Bot._find_combat_targets`. Each entry is
`(target point, profit, attacker id, distance)`. -/
def findCombatTargets (actionableSpores : List Spore)
    (enemyList neutralSpores : List (Point × Int))
    (builderIds usedSpores : List String) (tileValue : Point → Int)
    (survivalMode : Bool) : List (Point × Int × String × Int) :=
  if survivalMode then []
  else
    (ssort combatRankGE
      (neutralSpores.foldl
        (combatNeutralStep actionableSpores builderIds usedSpores tileValue)
        (enemyList.foldl
          (combatEnemyStep actionableSpores builderIds usedSpores tileValue) []))).take 5

/-- State of the hunter-commit loop in `get_next_move` (phase 3). -/
structure HunterResult where
  k : Nat
  hunterIds : List String
  usedSpores : List String
  actions : List BotAction
deriving Repr

/-- The `for target_pt, profit, attacker_id, dist in soft_targets` loop of
`get_next_move`: commits a move-to action per profitable target, stopping at
time-out or at the first target whose attacker is already used. -/
def commitHunterActions (tl : Nat → Int) :
    List (Point × Int × String × Int) → HunterResult → HunterResult
  | [], r => r
  | t :: rest, r =>
    if tl r.k ≤ 0 ∨ t.2.2.1 ∈ r.usedSpores then { r with k := r.k + 1 }
    else if t.2.1 > 20 then
      commitHunterActions tl rest
        { k := r.k + 1
          hunterIds := sInsert r.hunterIds t.2.2.1
          usedSpores := sInsert r.usedSpores t.2.2.1
          actions := r.actions ++ [.sporeMoveTo t.2.2.1 t.1] }
    else commitHunterActions tl rest { r with k := r.k + 1 }

/-- `Bot._assign_defenders`. -/
def assignDefenders (actionableSpores : List Spore) (spawnerPts : List Point)
    (threatMap enemyBiomassAt : List (Point × Int))
    (builderIds hunterIds usedSpores : List String) : List String :=
  if spawnerPts = [] ∨ actionableSpores = [] then []
  else spawnerPts.foldl (fun defenderIds spt =>
    let directThreat := dget threatMap spt 0
    let adjacentThreat := adjacentEnemyMax spt enemyBiomassAt
    if directThreat > 0 then
      let remaining := actionableSpores.filter (fun s =>
        decide (s.id ∉ builderIds ∧ s.id ∉ hunterIds ∧ s.id ∉ usedSpores ∧
          s.biomass ≥ directThreat + 2))
      match pyMinBy (fun s => manhattan s.position spt) remaining with
      | some defender => sInsert defenderIds defender.id
      | none => defenderIds
    else if adjacentThreat > 0 then
      let remaining := actionableSpores.filter (fun s =>
        decide (s.id ∉ builderIds ∧ s.id ∉ hunterIds ∧ s.id ∉ defenderIds ∧
          s.id ∉ usedSpores ∧ s.biomass ≥ 4))
      if remaining ≠ [] ∧ defenderIds.length < spawnerPts.length then
        match pyMinBy (fun s => manhattan s.position spt) remaining with
        | some defender => sInsert defenderIds defender.id
        | none => defenderIds
      else defenderIds
    else defenderIds) []

/-- State of the split phase (`_attempt_splits`). -/
structure SplitResult where
  k : Nat
  usedSpores : List String
  actions : List BotAction
deriving Repr

/-- The candidate loop of `_attempt_splits` (breaks after the first split). -/
def attemptSplitLoop (enemyBiomassAt threatMap : List (Point × Int))
    (tileValue tileOwner tileBiomass : Point → Int)
    (width height myTeamId : Int) (builderIds : List String) :
    List Spore → SplitResult → SplitResult
  | [], r => r
  | sp :: rest, r =>
    if sp.id ∈ r.usedSpores ∨ sp.id ∈ builderIds then
      attemptSplitLoop enemyBiomassAt threatMap tileValue tileOwner tileBiomass
        width height myTeamId builderIds rest r
    else
      let pt := sp.position
      let best := DIRS.foldl (fun (acc : Option Point × Int) d =>
        let nx := pt.x + d.x
        let ny := pt.y + d.y
        if ¬ inBounds nx ny width height then acc
        else
          let npt : Point := ⟨nx, ny⟩
          if tileBiomass npt ≠ 0 then acc
          else if dget enemyBiomassAt npt 0 ≥ sp.biomass then acc
          else if dget threatMap npt 0 ≥ sp.biomass then acc
          else
            let score := tileValue npt + (if tileOwner npt ≠ myTeamId then 30 else 0)
              - dget threatMap npt 0 * 40 - adjacentEnemyMax npt enemyBiomassAt * 30
            if score > acc.2 then (some d, score) else acc) (none, -(10 ^ 18 : Int))
      match best.1 with
      | some d =>
        if best.2 ≥ 35 then
          let movingBiomass := pydiv sp.biomass 2
          if 2 ≤ movingBiomass ∧ movingBiomass < sp.biomass then
            { r with
              usedSpores := sInsert r.usedSpores sp.id
              actions := r.actions ++ [.sporeSplit sp.id movingBiomass d] }
          else
            attemptSplitLoop enemyBiomassAt threatMap tileValue tileOwner tileBiomass
              width height myTeamId builderIds rest r
        else
          attemptSplitLoop enemyBiomassAt threatMap tileValue tileOwner tileBiomass
            width height myTeamId builderIds rest r
      | none =>
        attemptSplitLoop enemyBiomassAt threatMap tileValue tileOwner tileBiomass
          width height myTeamId builderIds rest r

/-- `Bot._attempt_splits`. -/
def attemptSplits (myTeam : TeamInfo) (bigSpores : List Spore)
    (enemyBiomassAt threatMap : List (Point × Int))
    (tileValue tileOwner tileBiomass : Point → Int)
    (width height myTeamId : Int) (usedSpores builderIds : List String)
    (actions : List BotAction) (survivalMode : Bool) (tl : Nat → Int) (k : Nat) :
    SplitResult :=
  if survivalMode then ⟨k, usedSpores, actions⟩
  else if myTeam.spores.length ≥ 18 then ⟨k, usedSpores, actions⟩
  else
    if tl k ≤ 10000 then ⟨k + 1, usedSpores, actions⟩
    else
      let splitCandidates :=
        (ssort (fun a b => decide (a.biomass ≥ b.biomass)) bigSpores).take 3
      attemptSplitLoop enemyBiomassAt threatMap tileValue tileOwner tileBiomass
        width height myTeamId builderIds splitCandidates ⟨k + 1, usedSpores, actions⟩

/-- The inner `_step_towards(src, dst)` of `_emergency_merge`. -/
def stepTowards (tileOwner tileBiomass : Point → Int)
    (width height myTeamId : Int) (src dst : Point) : Option Point :=
  let bestDist := manhattan src dst
  (DIRS.foldl (fun (acc : Option Point × Int) d =>
    let nx := src.x + d.x
    let ny := src.y + d.y
    if ¬ inBounds nx ny width height then acc
    else
      let npt : Point := ⟨nx, ny⟩
      let nd := manhattan npt dst
      if nd ≥ bestDist then acc
      else
        let cost : Int := if tileOwner npt = myTeamId ∧ tileBiomass npt ≥ 1 then 0 else 1
        if cost < acc.2 then (some d, cost) else acc) (none, 10)).1

/-- The endangered-spore collection loop of `_emergency_merge` (stops once
three endangered spores are collected). -/
def collectEndangered (threatMap enemyBiomassAt : List (Point × Int))
    (usedSpores builderIds : List String) :
    List Spore → List Spore → List Spore
  | [], acc => acc
  | s :: rest, acc =>
    if s.id ∈ usedSpores ∨ s.id ∈ builderIds then
      collectEndangered threatMap enemyBiomassAt usedSpores builderIds rest acc
    else
      let acc2 :=
        if dget threatMap s.position 0 > 0 ∨
            adjacentEnemyMax s.position enemyBiomassAt > 0 ∨ s.biomass ≤ 2 then
          acc ++ [s]
        else acc
      if acc2.length ≥ 3 then acc2
      else collectEndangered threatMap enemyBiomassAt usedSpores builderIds rest acc2

/-- State of the merge phase (`_emergency_merge`). -/
structure MergeResult where
  k : Nat
  usedSpores : List String
  actions : List BotAction
deriving Repr

/-- The per-endangered-spore loop of `_emergency_merge`. -/
def emergencyMergeLoop (mySporePts : List (Point × Spore))
    (threatMap enemyBiomassAt : List (Point × Int))
    (tileOwner tileBiomass : Point → Int) (width height myTeamId : Int)
    (builderIds : List String) (tl : Nat → Int) :
    List Spore → MergeResult → MergeResult
  | [], r => r
  | s :: rest, r =>
    if tl r.k ≤ 3000 ∨ s.id ∈ r.usedSpores ∨ s.id ∈ builderIds then
      emergencyMergeLoop mySporePts threatMap enemyBiomassAt tileOwner tileBiomass
        width height myTeamId builderIds tl rest { r with k := r.k + 1 }
    else
      let src := s.position
      let bestBuddy := (mySporePts.foldl (fun (acc : Option Point × (Int × Int)) bp =>
        if bp.2.id = s.id ∨ bp.2.id ∈ builderIds then acc
        else
          let d := manhattan src bp.1
          if d = 0 ∨ d > 3 then acc
          else if d < acc.2.1 ∨ (d = acc.2.1 ∧ -bp.2.biomass < acc.2.2) then
            (some bp.1, (d, -bp.2.biomass))
          else acc) (none, (10 ^ 9, -(10 ^ 9)))).1
      match bestBuddy with
      | none =>
        emergencyMergeLoop mySporePts threatMap enemyBiomassAt tileOwner tileBiomass
          width height myTeamId builderIds tl rest { r with k := r.k + 1 }
      | some buddy =>
        match stepTowards tileOwner tileBiomass width height myTeamId src buddy with
        | none =>
          emergencyMergeLoop mySporePts threatMap enemyBiomassAt tileOwner tileBiomass
            width height myTeamId builderIds tl rest { r with k := r.k + 1 }
        | some step =>
          let npt : Point := ⟨src.x + step.x, src.y + step.y⟩
          if dget threatMap npt 0 ≥ s.biomass then
            emergencyMergeLoop mySporePts threatMap enemyBiomassAt tileOwner tileBiomass
              width height myTeamId builderIds tl rest { r with k := r.k + 1 }
          else
            let moveCost : Int :=
              if tileOwner npt = myTeamId ∧ tileBiomass npt ≥ 1 then 0 else 1
            if s.biomass = 2 ∧ moveCost = 1 then
              emergencyMergeLoop mySporePts threatMap enemyBiomassAt tileOwner tileBiomass
                width height myTeamId builderIds tl rest { r with k := r.k + 1 }
            else
              emergencyMergeLoop mySporePts threatMap enemyBiomassAt tileOwner tileBiomass
                width height myTeamId builderIds tl rest
                { r with
                  k := r.k + 1
                  usedSpores := sInsert r.usedSpores s.id
                  actions := r.actions ++ [.sporeMove s.id step] }

/-- `Bot._emergency_merge`. -/
def emergencyMerge (actionableSorted mySpores : List Spore)
    (threatMap enemyBiomassAt : List (Point × Int))
    (tileOwner tileBiomass : Point → Int) (width height myTeamId : Int)
    (builderIds usedSpores : List String) (actions : List BotAction)
    (tl : Nat → Int) (k : Nat) : MergeResult :=
  if actionableSorted = [] then ⟨k, usedSpores, actions⟩
  else
    if tl k ≤ 5000 then ⟨k + 1, usedSpores, actions⟩
    else
      let mySporePts := mySpores.map (fun s => (s.position, s))
      let endangered := collectEndangered threatMap enemyBiomassAt usedSpores builderIds
        actionableSorted []
      emergencyMergeLoop mySporePts threatMap enemyBiomassAt tileOwner tileBiomass
        width height myTeamId builderIds tl endangered ⟨k + 1, usedSpores, actions⟩

/-- The read-only context of the movement phase (`_manage_spore_movement`),
captured at the point `get_next_move` enters phase 6. -/
structure MoveCtx where
  actionableSorted : List Spore
  defenderIds : List String
  hunterIds : List String
  builderIds : List String
  myCenter : Point
  laneTargets : List (String × Point)
  threatMap : List (Point × Int)
  enemyBiomassAt : List (Point × Int)
  myBiomassAt : List (Point × Int)
  tileValue : Point → Int
  tileOwner : Point → Int
  tileBiomass : Point → Int
  width : Int
  height : Int
  myTeamId : Int
  penalty2Biomass : Int
  isStagnant : Bool
  survivalMode : Bool
  spawnerPts : List Point
  mapType : String
  tickCount : Int

/-- The mutable state threaded through the movement phase: the time-stream
counter, `used_spores`, `actions` and the bot state. -/
structure MoveState where
  k : Nat
  usedSpores : List String
  actions : List BotAction
  st : BotState

/-- The per-direction scoring of the greedy movement search; `none` means the
direction is filtered out (out of bounds, lethal threat, unbeatable enemy, or
nonzero cost in pass 0). -/
def moveDirScore (ctx : MoveCtx) (sp : Spore) (isDefender isHunter : Bool)
    (laneTarget : Option Point) (prevPt : Option Point) (pioneerPenalty : Int)
    (defendCenter : Option Point) (passId : Nat) (d : Point) : Option Int :=
  let spPt := sp.position
  let nx := spPt.x + d.x
  let ny := spPt.y + d.y
  if ¬ inBounds nx ny ctx.width ctx.height then none
  else
    let npt : Point := ⟨nx, ny⟩
    if dget ctx.threatMap npt 0 ≥ sp.biomass then none
    else
      let enemyHere := dget ctx.enemyBiomassAt npt 0
      if enemyHere > 0 ∧ sp.biomass ≤ enemyHere then none
      else
        let moveCost : Int :=
          if ctx.tileOwner npt = ctx.myTeamId ∧ ctx.tileBiomass npt ≥ 1 then 0 else 1
        if passId = 0 ∧ moveCost ≠ 0 then none
        else
          let roleScore : Int :=
            if isHunter then
              (if enemyHere > 0 then 450 + (sp.biomass - enemyHere) * 5 else 0) +
                ctx.tileValue npt
            else if isDefender ∧ defendCenter.isSome then
              let dc := defendCenter.getD ⟨0, 0⟩
              let dscore : Int := 0 - manhattan npt dc * 35 +
                (if ctx.tileOwner npt = ctx.myTeamId then 30 else 0) +
                pydiv (ctx.tileValue npt) 2
              dscore
            else
              let base1 := ctx.tileValue npt * 4 +
                (if ctx.tileOwner npt ≠ ctx.myTeamId then 120 else 0)
              let base2 := base1 +
                (match laneTarget with
                 | some lt =>
                   (manhattan spPt lt - manhattan npt lt) *
                       (if ¬ ctx.isStagnant then 18 else 26) +
                     (manhattan npt ctx.myCenter - manhattan spPt ctx.myCenter) *
                       (if ¬ ctx.isStagnant then 12 else 18)
                 | none => 0)
              base2 -
                (if (ctx.mapType = "medium" ∨ ctx.mapType = "large") ∧
                    ctx.tileOwner npt = ctx.myTeamId ∧ manhattan npt ctx.myCenter ≤ 3
                 then 90 else 0)
          some (roleScore
            + (if moveCost = 0 then 15 else 0)
            + (if enemyHere > 0 ∧ sp.biomass > enemyHere then
                 450 + (sp.biomass - enemyHere) * 5 else 0)
            - dget ctx.threatMap npt 0 * 30
            - adjacentEnemyMax npt ctx.enemyBiomassAt * 20
            - (if sp.biomass = 2 ∧ moveCost = 1 then pioneerPenalty else 0)
            - (if prevPt = some npt ∧ dget ctx.threatMap spPt 0 = 0 ∧
                  adjacentEnemyMax spPt ctx.enemyBiomassAt = 0 then 220 else 0)
            - (if dget ctx.myBiomassAt npt 0 > 0 then 20 else 0))

/-- One pass of the `for d in DIRS` loop (first strictly better score wins). -/
def bestDirForPass (ctx : MoveCtx) (sp : Spore) (isDefender isHunter : Bool)
    (laneTarget prevPt : Option Point) (pioneerPenalty : Int)
    (defendCenter : Option Point) (passId : Nat) : Option Point × Int :=
  DIRS.foldl (fun acc d =>
    match moveDirScore ctx sp isDefender isHunter laneTarget prevPt pioneerPenalty
      defendCenter passId d with
    | none => acc
    | some score => if score > acc.2 then (some d, score) else acc)
    (none, -(10 ^ 18 : Int))

/-- The two-pass (`passes = (0, 1)` or `(1,)`) direction choice of
`_manage_spore_movement`. -/
def chooseMoveDir (ctx : MoveCtx) (sp : Spore) (isDefender isHunter : Bool)
    (laneTarget prevPt : Option Point) (pioneerPenalty : Int)
    (defendCenter : Option Point) (preferZeroCost : Bool) : Option Point :=
  if preferZeroCost then
    let b0 := bestDirForPass ctx sp isDefender isHunter laneTarget prevPt
      pioneerPenalty defendCenter 0
    if b0.1.isSome then b0.1
    else (bestDirForPass ctx sp isDefender isHunter laneTarget prevPt
      pioneerPenalty defendCenter 1).1
  else (bestDirForPass ctx sp isDefender isHunter laneTarget prevPt
    pioneerPenalty defendCenter 1).1

/-- The per-spore body of the `_manage_spore_movement` loop. -/
def movementStep (ctx : MoveCtx) (ms : MoveState) (sp : Spore) : MoveState :=
  if sp.id ∈ ms.usedSpores ∨ sp.id ∈ ctx.builderIds then ms
  else
    let isDefender : Bool := decide (sp.id ∈ ctx.defenderIds)
    let isHunter : Bool := decide (sp.id ∈ ctx.hunterIds)
    let spPt := sp.position
    let laneState : Option Point × BotState :=
      if ¬ isDefender ∧ ¬ isHunter ∧
          (ctx.mapType = "medium" ∨ ctx.mapType = "large" ∨ ctx.isStagnant) then
        let al := assignLane ms.st sp.id spPt ctx.myCenter ctx.tickCount
        (dfind ctx.laneTargets al.1, al.2)
      else (none, ms.st)
    let laneTarget := laneState.1
    let st1 := laneState.2
    let hist := dget st1.posHistById sp.id []
    let prevPt : Option Point :=
      if hist.length ≥ 2 then some (hist.getD (hist.length - 2) ⟨0, 0⟩) else none
    let isPioneer : Bool := decide (sp.biomass = 2) && laneTarget.isSome &&
      !ctx.survivalMode && !isDefender && !isHunter &&
      decide (ctx.spawnerPts.length ≥ 1 ∨ ctx.actionableSorted.length ≥ 3) &&
      (match laneTarget with
       | some lt => decide (manhattan spPt lt ≥ 5)
       | none => false)
    let pioneerPenalty : Int :=
      if isPioneer then max 20 (pydiv ctx.penalty2Biomass 3) else ctx.penalty2Biomass
    let defendCenter : Option Point := ctx.spawnerPts.head?
    let defenderIdle : Bool := isDefender &&
      (match defendCenter with
       | some dc => decide (manhattan spPt dc ≤ 2 ∧ dget ctx.threatMap spPt 0 = 0 ∧
           adjacentEnemyMax spPt ctx.enemyBiomassAt = 0)
       | none => false)
    if defenderIdle then
      { ms with st := st1 }
    else
      let preferZeroCost : Bool := decide (sp.biomass = 2) && !isPioneer
      match chooseMoveDir ctx sp isDefender isHunter laneTarget prevPt pioneerPenalty
        defendCenter preferZeroCost with
      | some d =>
        { ms with
          st := st1
          usedSpores := sInsert ms.usedSpores sp.id
          actions := ms.actions ++ [.sporeMove sp.id d] }
      | none =>
        if isDefender ∧ defendCenter.isSome then
          { ms with
            st := st1
            usedSpores := sInsert ms.usedSpores sp.id
            actions := ms.actions ++ [.sporeMoveTo sp.id (defendCenter.getD ⟨0, 0⟩)] }
        else
          match laneTarget with
          | some lt =>
            if dget ctx.threatMap lt 0 < sp.biomass then
              { ms with
                st := st1
                usedSpores := sInsert ms.usedSpores sp.id
                actions := ms.actions ++ [.sporeMoveTo sp.id lt] }
            else { ms with st := st1 }
          | none => { ms with st := st1 }

/-- The `for sp in actionable_sorted` loop of `_manage_spore_movement`,
checking the time budget (cutoff 0.002) at the top of every iteration. -/
def movementLoop (tl : Nat → Int) (ctx : MoveCtx) : List Spore → MoveState → MoveState
  | [], ms => ms
  | sp :: rest, ms =>
    if tl ms.k ≤ 2000 then { ms with k := ms.k + 1 }
    else movementLoop tl ctx rest (movementStep ctx { ms with k := ms.k + 1 } sp)

/-- `Bot._manage_spore_movement`. -/
def manageSporeMovement (tl : Nat → Int) (ctx : MoveCtx) (ms : MoveState) : MoveState :=
  movementLoop tl ctx ctx.actionableSorted ms

/-- Control state of `get_next_move` just before the movement phase: either a
completed tick (an early `return actions`), or the context and mutable state
with which phase 6 runs. -/
inductive TickStage where
  | done : List BotAction → BotState → TickStage
  | beforeMovement : MoveCtx → MoveState → TickStage

/-- `Bot.get_next_move` up to (and including) the `out_of_time` check that
precedes the movement phase. -/
def getNextMovePre (tl : Nat → Int) (st0 : BotState) (gm : GameMessage) :
    TickStage :=
  let st := { st0 with tickCount := gm.tick }
  let width := gm.width
  let height := gm.height
  let myTeamId := gm.yourTeamId
  let myTeam := dget gm.teamInfos myTeamId ⟨[], [], 0, 0⟩
  let nutrientGrid := gm.nutrientGrid
  let ownershipGrid := gm.ownershipGrid
  let biomassGrid := gm.biomassGrid
  let st1 :=
    if st.totalSporeCount = none ∧ st.tickCount = 1 then
      { st with
        totalSporeCount := some (myTeam.spores.length : Int)
        initialSporeCount :=
          some ((myTeam.spores.filter (fun s => decide (s.biomass ≥ 2))).length : Int) }
    else st
  let st2 := ensureTopTilesCache st1 width height nutrientGrid
  let tileValue := fun pt => gridAt nutrientGrid pt
  let tileOwner := fun pt => gridAt ownershipGrid pt
  let tileBiomass := fun pt => gridAt biomassGrid pt
  let ep := getEnemyPositions gm.worldSpores myTeamId
  let enemyBiomassAt := ep.1
  let enemyList := ep.2
  let neutralSpores := getNeutralPositions gm.worldSpores
  let myBiomassAt := myTeam.spores.foldl (fun m sp =>
    dset m sp.position (max (dget m sp.position 0) sp.biomass)) []
  let st3 :=
    if st2.mapType = "" then
      let am := analyzeMapType st2 width height neutralSpores
        (myTeam.spores.length : Int) nutrientGrid
      { am.2 with mapType := am.1 }
    else st2
  let tm := calculateTerritoryMetrics st3 width height ownershipGrid nutrientGrid
    myTeamId st3.tickCount
  let myTileCount := tm.1.1
  let nutrientGeneration := tm.1.2
  let st4 := tm.2
  let stg := detectExpansionStagnation st4 myTileCount st4.tickCount
  let isStagnant := stg.1
  let st5 := stg.2
  let threatMap := buildThreatMap enemyBiomassAt width height
  let spawnerPts := myTeam.spawners.map (·.position)
  let myCenter := calculateMyCenter spawnerPts myTeam.spores width height
  let lt :=
    if st5.mapType = "medium" ∨ st5.mapType = "large" ∨ isStagnant then
      pickLaneTargets st5 st5.topTilesCache myCenter width height st5.tickCount
        isStagnant tileValue tileOwner (fun pt => dget threatMap pt 0) myTeamId
    else ([], st5)
  let laneTargets := lt.1
  let st6 := lt.2
  let penalty2Biomass := improved2BiomassPenalty st6.mapType st6.tickCount myTileCount
    (width * height) (myTeam.spawners.length : Int) isStagnant nutrientGeneration
  let actionableSpores := myTeam.spores.filter (fun s => decide (s.biomass ≥ 2))
  let bigSpores := myTeam.spores.filter (fun s => decide (s.biomass ≥ 6))
  let st7 := updatePositionHistory st6 myTeam.spores
  let survivalMode : Bool := decide
    ((myTeam.spawners.length = 0 ∧ myTeam.spores.length ≤ 2) ∨
     (myTeam.spawners.length > 0 ∧ myTeam.spores.length ≤ 1))
  let st8 :=
    if myTeam.spawners.length > 0 ∧ st7.firstSpawnerTick = none then
      { st7 with firstSpawnerTick := some st7.tickCount }
    else st7
  let t1 := tl 0
  let r1 : BuildResult :=
    if ¬ (t1 ≤ 0) ∧ myTeam.spawners.length = 0 then
      buildFirstSpawner gm myTeam actionableSpores spawnerPts enemyBiomassAt enemyList
        threatMap tileValue tileOwner tileBiomass [] [] [] st8
    else ⟨[], [], [], st8⟩
  let t2 := tl 1
  let r2 : BuildResult :=
    if ¬ (t2 ≤ 0) ∧ myTeam.spawners.length = 1 then
      buildSecondSpawner gm myTeam actionableSpores spawnerPts enemyBiomassAt enemyList
        threatMap tileValue tileOwner tileBiomass r1.usedSpores r1.builderIds r1.actions
        myTileCount (width * height) r1.st
    else r1
  let t3 := tl 2
  if t3 ≤ 0 then .done r2.actions r2.st
  else
    let pr := manageSpawnerProduction myTeam spawnerPts threatMap enemyBiomassAt
      width height myTileCount nutrientGeneration isStagnant [] r2.actions r2.st
    let t4 := tl 3
    if t4 ≤ 0 then .done pr.actions r2.st
    else
      let softTargets := findCombatTargets actionableSpores enemyList neutralSpores
        r2.builderIds r2.usedSpores tileValue survivalMode
      let hr := commitHunterActions tl softTargets ⟨4, [], r2.usedSpores, pr.actions⟩
      let defenderIds := assignDefenders actionableSpores spawnerPts threatMap
        enemyBiomassAt r2.builderIds hr.hunterIds hr.usedSpores
      let t5 := tl hr.k
      if t5 ≤ 0 then .done hr.actions r2.st
      else
        let sr := attemptSplits myTeam bigSpores enemyBiomassAt threatMap tileValue
          tileOwner tileBiomass width height myTeamId hr.usedSpores r2.builderIds
          hr.actions survivalMode tl (hr.k + 1)
        let t6 := tl sr.k
        if t6 ≤ 0 then .done sr.actions r2.st
        else
          let actionableSorted :=
            ssort (fun a b => decide (a.biomass ≥ b.biomass)) actionableSpores
          let mr := emergencyMerge actionableSorted myTeam.spores threatMap
            enemyBiomassAt tileOwner tileBiomass width height myTeamId r2.builderIds
            sr.usedSpores sr.actions tl (sr.k + 1)
          let t7 := tl mr.k
          if t7 ≤ 0 then .done mr.actions r2.st
          else
            let ctx : MoveCtx :=
              { actionableSorted := actionableSorted
                defenderIds := defenderIds
                hunterIds := hr.hunterIds
                builderIds := r2.builderIds
                myCenter := myCenter
                laneTargets := laneTargets
                threatMap := threatMap
                enemyBiomassAt := enemyBiomassAt
                myBiomassAt := myBiomassAt
                tileValue := tileValue
                tileOwner := tileOwner
                tileBiomass := tileBiomass
                width := width
                height := height
                myTeamId := myTeamId
                penalty2Biomass := penalty2Biomass
                isStagnant := isStagnant
                survivalMode := survivalMode
                spawnerPts := spawnerPts
                mapType := r2.st.mapType
                tickCount := r2.st.tickCount }
            .beforeMovement ctx ⟨mr.k + 1, mr.usedSpores, mr.actions, r2.st⟩

/-- `Bot.get_next_move`: the pre-movement pipeline followed by phase 6. -/
def getNextMove (tl : Nat → Int) (st0 : BotState) (gm : GameMessage) :
    List BotAction × BotState :=
  match getNextMovePre tl st0 gm with
  | .done acts st => (acts, st)
  | .beforeMovement ctx ms =>
    let ms2 := manageSporeMovement tl ctx ms
    (ms2.actions, ms2.st)

/-- The actions already committed when `get_next_move` reaches its movement
phase (or the full returned list, for a tick that ends earlier). -/
def preCommittedActions (tl : Nat → Int) (st0 : BotState) (gm : GameMessage) :
    List BotAction :=
  match getNextMovePre tl st0 gm with
  | .done acts _ => acts
  | .beforeMovement _ ms => ms.actions

/-! ### Generic lemmas about the Python-collection models -/

theorem mem_insSorted {α : Type} (le : α → α → Bool) (x : α) (l : List α) (a : α) :
    a ∈ insSorted le x l ↔ a = x ∨ a ∈ l := by
  induction l with
  | nil => simp [insSorted]
  | cons y ys ih =>
    simp only [insSorted]
    split
    · simp [List.mem_cons]
    · simp only [List.mem_cons, ih]
      tauto

theorem mem_ssort {α : Type} (le : α → α → Bool) (l : List α) (a : α) :
    a ∈ ssort le l ↔ a ∈ l := by
  induction l with
  | nil => simp [ssort]
  | cons x xs ih =>
    have : ssort le (x :: xs) = insSorted le x (ssort le xs) := rfl
    rw [this, mem_insSorted]
    simp [ih]

theorem length_insSorted {α : Type} (le : α → α → Bool) (x : α) (l : List α) :
    (insSorted le x l).length = l.length + 1 := by
  induction l with
  | nil => simp [insSorted]
  | cons y ys ih =>
    simp only [insSorted]
    split <;> simp [ih]

theorem length_ssort {α : Type} (le : α → α → Bool) (l : List α) :
    (ssort le l).length = l.length := by
  induction l with
  | nil => rfl
  | cons x xs ih =>
    have : ssort le (x :: xs) = insSorted le x (ssort le xs) := rfl
    rw [this, length_insSorted, ih]
    rfl

theorem pairwise_insSorted {α : Type} (le : α → α → Bool)
    (htot : ∀ a b, le a b = true ∨ le b a = true)
    (htrans : ∀ a b c, le a b = true → le b c = true → le a c = true)
    (x : α) (l : List α) (h : l.Pairwise (fun a b => le a b = true)) :
    (insSorted le x l).Pairwise (fun a b => le a b = true) := by
  induction l with
  | nil => simp [insSorted]
  | cons y ys ih =>
    rcases List.pairwise_cons.mp h with ⟨hy, hys⟩
    simp only [insSorted]
    split
    · rename_i hxy
      refine List.pairwise_cons.mpr ⟨?_, h⟩
      intro b hb
      rcases List.mem_cons.mp hb with rfl | hb2
      · exact hxy
      · exact htrans x y b hxy (hy b hb2)
    · rename_i hxy
      refine List.pairwise_cons.mpr ⟨?_, ih hys⟩
      intro b hb
      rcases (mem_insSorted le x ys b).mp hb with rfl | hb2
      · rcases htot b y with h1 | h2
        · exact absurd h1 hxy
        · exact h2
      · exact hy b hb2

theorem pairwise_ssort {α : Type} (le : α → α → Bool)
    (htot : ∀ a b, le a b = true ∨ le b a = true)
    (htrans : ∀ a b c, le a b = true → le b c = true → le a c = true)
    (l : List α) : (ssort le l).Pairwise (fun a b => le a b = true) := by
  induction l with
  | nil => simp [ssort]
  | cons x xs ih => exact pairwise_insSorted le htot htrans x (ssort le xs) ih

theorem foldl_min_mem {α : Type} (f : α → Int) (xs : List α) (b : α) :
    xs.foldl (fun b a => if f a < f b then a else b) b ∈ b :: xs := by
  induction xs generalizing b with
  | nil => simp
  | cons x xs ih =>
    simp only [List.foldl_cons]
    by_cases hfx : f x < f b
    · simp only [if_pos hfx]
      rcases List.mem_cons.mp (ih x) with h | h <;> simp [h]
    · simp only [if_neg hfx]
      rcases List.mem_cons.mp (ih b) with h | h <;> simp [h]

theorem pyMinBy_mem {α : Type} (f : α → Int) (l : List α) (a : α) :
    pyMinBy f l = some a → a ∈ l := by
  cases l with
  | nil => simp [pyMinBy]
  | cons x xs =>
    intro h
    simp only [pyMinBy, Option.some.injEq] at h
    subst h
    exact foldl_min_mem f xs x

theorem foldl_min_le {α : Type} (f : α → Int) (xs : List α) (b : α) :
    f (xs.foldl (fun b a => if f a < f b then a else b) b) ≤ f b ∧
    ∀ c ∈ xs, f (xs.foldl (fun b a => if f a < f b then a else b) b) ≤ f c := by
  induction xs generalizing b with
  | nil => simp
  | cons x xs ih =>
    simp only [List.foldl_cons]
    have h1 := ih (if f x < f b then x else b)
    constructor
    · refine le_trans h1.1 ?_
      split <;> omega
    · intro c hc
      rcases List.mem_cons.mp hc with rfl | hc2
      · refine le_trans h1.1 ?_
        split <;> omega
      · exact h1.2 c hc2

theorem pyMinBy_le {α : Type} (f : α → Int) (l : List α) (a : α) :
    pyMinBy f l = some a → ∀ b ∈ l, f a ≤ f b := by
  cases l with
  | nil => simp [pyMinBy]
  | cons x xs =>
    intro h b hb
    simp only [pyMinBy, Option.some.injEq] at h
    subst h
    rcases List.mem_cons.mp hb with rfl | hb2
    · exact (foldl_min_le f xs b).1
    · exact (foldl_min_le f xs x).2 b hb2

theorem foldl_max_mem {α : Type} (f : α → Int) (xs : List α) (b : α) :
    xs.foldl (fun b a => if f a > f b then a else b) b ∈ b :: xs := by
  induction xs generalizing b with
  | nil => simp
  | cons x xs ih =>
    simp only [List.foldl_cons]
    by_cases hfx : f x > f b
    · simp only [if_pos hfx]
      rcases List.mem_cons.mp (ih x) with h | h <;> simp [h]
    · simp only [if_neg hfx]
      rcases List.mem_cons.mp (ih b) with h | h <;> simp [h]

theorem pyMaxBy_mem {α : Type} (f : α → Int) (l : List α) (a : α) :
    pyMaxBy f l = some a → a ∈ l := by
  cases l with
  | nil => simp [pyMaxBy]
  | cons x xs =>
    intro h
    simp only [pyMaxBy, Option.some.injEq] at h
    subst h
    exact foldl_max_mem f xs x

theorem foldl_int_max_mem (xs : List Int) (b : Int) : xs.foldl max b ∈ b :: xs := by
  induction xs generalizing b with
  | nil => simp
  | cons x xs ih =>
    simp only [List.foldl_cons]
    rcases max_choice b x with h2 | h2 <;> rw [h2]
    · rcases List.mem_cons.mp (ih b) with h | h <;> simp [h]
    · rcases List.mem_cons.mp (ih x) with h | h <;> simp [h]

theorem pyMaxD_mem (l : List Int) (d : Int) (h : l ≠ []) : pyMaxD l d ∈ l := by
  cases l with
  | nil => exact absurd rfl h
  | cons x xs => exact foldl_int_max_mem xs x

theorem mem_sInsert_self (s : List String) (x : String) : x ∈ sInsert s x := by
  unfold sInsert
  split
  · assumption
  · exact List.mem_cons_self x s

theorem mem_sInsert_of_mem {s : List String} {y : String} (x : String) (h : y ∈ s) :
    y ∈ sInsert s x := by
  unfold sInsert
  split
  · exact h
  · exact List.mem_cons_of_mem x h

theorem mem_sInsert_iff (s : List String) (x y : String) :
    y ∈ sInsert s x ↔ y = x ∨ y ∈ s := by
  unfold sInsert
  split
  · rename_i hx
    constructor
    · exact Or.inr
    · rintro (rfl | h) <;> assumption
  · simp [List.mem_cons]

theorem dget_dset_self {κ α : Type} [DecidableEq κ] (m : List (κ × α)) (k : κ)
    (v : α) (d : α) : dget (dset m k v) k d = v := by
  induction m with
  | nil => simp [dset, dget]
  | cons kv rest ih =>
    simp only [dset]
    split
    · simp [dget]
    · rename_i hne
      simp only [dget]
      split
      · exact absurd (by assumption) hne
      · exact ih

theorem dget_dset_ne {κ α : Type} [DecidableEq κ] (m : List (κ × α)) (k k' : κ)
    (v : α) (d : α) (h : k' ≠ k) : dget (dset m k v) k' d = dget m k' d := by
  induction m with
  | nil =>
    simp only [dset, dget]
    split
    · rename_i heq
      exact absurd heq (Ne.symm h)
    · rfl
  | cons kv rest ih =>
    by_cases hk : kv.1 = k
    · have hkk' : ¬ ((k, v).1 = k') := fun hh => h hh.symm
      have hkvk' : ¬ (kv.1 = k') := by rw [hk]; exact fun hh => h hh.symm
      simp only [dset, if_pos hk, dget, if_neg hkk', if_neg hkvk']
    · simp only [dset, if_neg hk, dget]
      split
      · rfl
      · exact ih

/-! ### Threat-map lemmas (claim C4) -/

theorem dget_threatInsert_self (tm : List (Point × Int)) (pt : Point) (eb : Int) :
    eb ≤ dget (threatInsert tm pt eb) pt 0 := by
  unfold threatInsert
  split
  · rw [dget_dset_self]
  · omega

theorem dget_threatInsert_mono (tm : List (Point × Int)) (p : Point) (v : Int)
    (q : Point) : dget tm q 0 ≤ dget (threatInsert tm p v) q 0 := by
  unfold threatInsert
  split
  · by_cases hq : q = p
    · subst hq
      rw [dget_dset_self]
      omega
    · rw [dget_dset_ne _ _ _ _ _ hq]
  · exact le_refl _

theorem dget_threatInsert_ne (tm : List (Point × Int)) (p : Point) (v : Int)
    (q : Point) (h : q ≠ p) : dget (threatInsert tm p v) q 0 = dget tm q 0 := by
  unfold threatInsert
  split
  · exact dget_dset_ne _ _ _ _ _ h
  · rfl

theorem dget_foldl_mono {β : Type} (step : List (Point × Int) → β → List (Point × Int))
    (hstep : ∀ tm b q, dget tm q 0 ≤ dget (step tm b) q 0) (l : List β) :
    ∀ (tm : List (Point × Int)) (q : Point),
      dget tm q 0 ≤ dget (l.foldl step tm) q 0 := by
  induction l with
  | nil => intro tm q; exact le_refl _
  | cons b bs ih =>
    intro tm q
    exact le_trans (hstep tm b q) (ih (step tm b) q)

theorem processEnemyThreat_mono (w h : Int) (tm : List (Point × Int))
    (e : Point × Int) (q : Point) :
    dget tm q 0 ≤ dget (processEnemyThreat w h tm e) q 0 := by
  unfold processEnemyThreat
  refine le_trans (dget_threatInsert_mono tm e.1 e.2 q) ?_
  apply dget_foldl_mono
  intro tm2 d q2
  dsimp only
  split
  · exact dget_threatInsert_mono _ _ _ _
  · exact le_refl _

theorem dget_foldl_target {β : Type} (step : List (Point × Int) → β → List (Point × Int))
    (hmono : ∀ tm b q, dget tm q 0 ≤ dget (step tm b) q 0) (l : List β) (b0 : β)
    (hb : b0 ∈ l) (q : Point) (t : Int)
    (hafter : ∀ tm, t ≤ dget (step tm b0) q 0) :
    ∀ tm, t ≤ dget (l.foldl step tm) q 0 := by
  induction l with
  | nil => exact absurd hb (List.not_mem_nil b0)
  | cons x xs ih =>
    intro tm
    rcases List.mem_cons.mp hb with rfl | hb2
    · exact le_trans (hafter tm) (dget_foldl_mono step hmono xs (step tm b0) q)
    · exact ih hb2 (step tm x)

theorem processEnemyThreat_self (w h : Int) (tm : List (Point × Int))
    (e : Point × Int) : e.2 ≤ dget (processEnemyThreat w h tm e) e.1 0 := by
  unfold processEnemyThreat
  refine le_trans (dget_threatInsert_self tm e.1 e.2) ?_
  apply dget_foldl_mono
  intro tm2 d q2
  dsimp only
  split
  · exact dget_threatInsert_mono _ _ _ _
  · exact le_refl _

theorem processEnemyThreat_nbr (w h : Int) (tm : List (Point × Int))
    (e : Point × Int) (d : Point) (hd : d ∈ DIRS)
    (hb : inBounds (e.1.x + d.x) (e.1.y + d.y) w h = true) :
    e.2 ≤ dget (processEnemyThreat w h tm e) ⟨e.1.x + d.x, e.1.y + d.y⟩ 0 := by
  unfold processEnemyThreat
  refine dget_foldl_target _ ?_ DIRS d hd _ e.2 ?_ _
  · intro tm2 b q2
    dsimp only
    split
    · exact dget_threatInsert_mono _ _ _ _
    · exact le_refl _
  · intro tm2
    dsimp only
    rw [if_pos hb]
    exact dget_threatInsert_self _ _ _

theorem buildThreatMap_self (enemies : List (Point × Int)) (w h : Int)
    (e : Point × Int) (he : e ∈ enemies) :
    e.2 ≤ dget (buildThreatMap enemies w h) e.1 0 := by
  unfold buildThreatMap
  exact dget_foldl_target _ (processEnemyThreat_mono w h) enemies e he e.1 e.2
    (fun tm => processEnemyThreat_self w h tm e) []

theorem buildThreatMap_nbr (enemies : List (Point × Int)) (w h : Int)
    (e : Point × Int) (he : e ∈ enemies) (d : Point) (hd : d ∈ DIRS)
    (hb : inBounds (e.1.x + d.x) (e.1.y + d.y) w h = true) :
    e.2 ≤ dget (buildThreatMap enemies w h) ⟨e.1.x + d.x, e.1.y + d.y⟩ 0 := by
  unfold buildThreatMap
  exact dget_foldl_target _ (processEnemyThreat_mono w h) enemies e he _ e.2
    (fun tm => processEnemyThreat_nbr w h tm e d hd hb) []

theorem processEnemyThreat_support (w h : Int) (tm : List (Point × Int))
    (e : Point × Int) (q : Point) (hq1 : q ≠ e.1)
    (hq2 : ∀ d ∈ DIRS, q ≠ Point.mk (e.1.x + d.x) (e.1.y + d.y)) :
    dget (processEnemyThreat w h tm e) q 0 = dget tm q 0 := by
  unfold processEnemyThreat
  have aux : ∀ (ds : List Point), (∀ d ∈ ds, q ≠ Point.mk (e.1.x + d.x) (e.1.y + d.y)) →
      ∀ tm2, dget (ds.foldl (fun tm2 d =>
        if inBounds (e.1.x + d.x) (e.1.y + d.y) w h then
          threatInsert tm2 ⟨e.1.x + d.x, e.1.y + d.y⟩ e.2
        else tm2) tm2) q 0 = dget tm2 q 0 := by
    intro ds
    induction ds with
    | nil => intro _ tm2; rfl
    | cons x xs ih =>
      intro hds tm2
      simp only [List.foldl_cons]
      rw [ih (fun d hd => hds d (List.mem_cons_of_mem x hd))]
      split
      · exact dget_threatInsert_ne _ _ _ _ (hds x (List.mem_cons_self x xs))
      · rfl
  rw [aux DIRS hq2 _]
  exact dget_threatInsert_ne _ _ _ _ hq1

theorem buildThreatMap_support_aux (w h : Int) (l : List (Point × Int)) (q : Point) :
    ∀ tm, dget (l.foldl (processEnemyThreat w h) tm) q 0 ≠ 0 →
      dget tm q 0 ≠ 0 ∨
        ∃ e ∈ l, q = e.1 ∨ ∃ d ∈ DIRS, q = Point.mk (e.1.x + d.x) (e.1.y + d.y) := by
  induction l with
  | nil => intro tm hne; exact Or.inl hne
  | cons e es ih =>
    intro tm hne
    simp only [List.foldl_cons] at hne
    rcases ih (processEnemyThreat w h tm e) hne with h1 | ⟨e2, he2, hq⟩
    · by_cases hcell : q = e.1 ∨ ∃ d ∈ DIRS, q = Point.mk (e.1.x + d.x) (e.1.y + d.y)
      · exact Or.inr ⟨e, List.mem_cons_self e es, hcell⟩
      · push_neg at hcell
        rw [processEnemyThreat_support w h tm e q hcell.1 hcell.2] at h1
        exact Or.inl h1
    · exact Or.inr ⟨e2, List.mem_cons_of_mem e he2, hq⟩

theorem buildThreatMap_support (enemies : List (Point × Int)) (w h : Int) (q : Point)
    (hne : dget (buildThreatMap enemies w h) q 0 ≠ 0) :
    ∃ e ∈ enemies, q = e.1 ∨ ∃ d ∈ DIRS, q = Point.mk (e.1.x + d.x) (e.1.y + d.y) := by
  unfold buildThreatMap at hne
  rcases buildThreatMap_support_aux w h enemies q [] hne with h1 | h2
  · exact absurd rfl h1
  · exact h2

/-- C4: for any enemy mapping, the threat map assigns every enemy's own cell
and each in-bounds 4-neighbour a threat value at least that enemy's biomass;
every cell with nonzero threat is an enemy cell or a 4-neighbour of one; and
the empty input produces the empty map. -/
theorem claimC4 (enemies : List (Point × Int)) (w h : Int) :
    (∀ e ∈ enemies,
      e.2 ≤ dget (buildThreatMap enemies w h) e.1 0 ∧
      ∀ d ∈ DIRS, inBounds (e.1.x + d.x) (e.1.y + d.y) w h = true →
        e.2 ≤ dget (buildThreatMap enemies w h) (Point.mk (e.1.x + d.x) (e.1.y + d.y)) 0) ∧
    (∀ q : Point, dget (buildThreatMap enemies w h) q 0 ≠ 0 →
      ∃ e ∈ enemies, q = e.1 ∨ ∃ d ∈ DIRS, q = Point.mk (e.1.x + d.x) (e.1.y + d.y)) ∧
    buildThreatMap [] w h = [] := by
  refine ⟨?_, buildThreatMap_support enemies w h, rfl⟩
  intro e he
  exact ⟨buildThreatMap_self enemies w h e he,
    fun d hd hb => buildThreatMap_nbr enemies w h e he d hd hb⟩

/-- Witness for C4 at a concrete single-enemy input. -/
theorem claimC4_witness :
    (5 : Int) ≤ dget (buildThreatMap [(⟨1, 1⟩, 5)] 3 3) ⟨1, 1⟩ 0 ∧
    (5 : Int) ≤ dget (buildThreatMap [(⟨1, 1⟩, 5)] 3 3) ⟨1, 2⟩ 0 := by
  have hmain := claimC4 [(⟨1, 1⟩, 5)] 3 3
  have h1 := (hmain.1 (⟨1, 1⟩, 5) (by simp)).1
  have h2 := (hmain.1 (⟨1, 1⟩, 5) (by simp)).2 ⟨0, 1⟩ (by simp [DIRS]) (by decide)
  exact ⟨h1, h2⟩

/-! ### Claims C10, C3, C6 (the first-spawner decision and production sizing) -/

/-- C10: the triple returned by `should_build_first_spawner_v8` is independent
of `total_spore_count`, `neutral_count` and `my_nutrients` — any two calls
differing only in those arguments return identical results. -/
theorem claimC10 (mapType : String)
    (tick actionableCount maxBiomass nextSpawnerCost t1 n1 m1 t2 n2 m2 : Int) :
    shouldBuildFirstSpawnerV8 mapType tick actionableCount maxBiomass
        nextSpawnerCost t1 n1 m1 =
      shouldBuildFirstSpawnerV8 mapType tick actionableCount maxBiomass
        nextSpawnerCost t2 n2 m2 := rfl

/-- C3 counterexample: at tick 18 (past every forced threshold) on a medium
map with one actionable unit of biomass 2 but `next_spawner_cost` 10, the
decision is `(False, 0, False)`, not a forced build. -/
theorem claimC3_counterexample :
    shouldBuildFirstSpawnerV8 "medium" 18 1 2 10 0 0 0 = (false, 0, false) := by
  rfl

/-- C3 (amended): once `tick ≥ 16`, given at least one actionable unit and a
strongest unit whose biomass reaches `max 2 next_spawner_cost`, the decision
returns `(True, max 2 next_spawner_cost, emergency := True)` on every map
type; without the biomass condition it can return `(False, 0, False)` forever. -/
theorem claimC3 (mapType : String)
    (tick actionableCount maxBiomass nextSpawnerCost t n m : Int)
    (htick : 16 ≤ tick) (hact : 1 ≤ actionableCount)
    (hbio : max 2 nextSpawnerCost ≤ maxBiomass) :
    shouldBuildFirstSpawnerV8 mapType tick actionableCount maxBiomass
        nextSpawnerCost t n m = (true, max 2 nextSpawnerCost, true) := by
  unfold shouldBuildFirstSpawnerV8
  split_ifs <;> first | rfl | omega

/-- Witness for C3 (amended) at a concrete input. -/
theorem claimC3_witness :
    shouldBuildFirstSpawnerV8 "large" 20 1 7 5 0 0 0 = (true, max 2 5, true) :=
  claimC3 "large" 20 1 7 5 0 0 0 (by norm_num) (by norm_num) (by norm_num)

/-- C6 counterexample: at tick 10 with local threat 10 (so `threat + 3 = 13`),
5 spores and 48 nutrients, the production size is 8 < 13 — the `threat + 3`
minimum is not applied in the early-game branch. -/
theorem claimC6_counterexample :
    aggressiveSpawnerProduction 10 10 5 48 0 100 false 0 = 8 ∧
      ¬ ((10 : Int) + 3 ≤ 8) := by
  constructor
  · rfl
  · decide

/-- C6 (amended): the `threat + 3` minimum on the production size holds only
for ticks in `[400, 700)`, or ticks `≥ 700` with fewer than 1000 nutrients,
and only outside the stagnation override (`is_stagnant` with ≥ 30 nutrients);
in the other phases positive local threat does not raise the size. -/
theorem claimC6 (tick localThreat sporeCount nutrients myTerritoryCount
    totalTiles : Int) (isStagnant : Bool) (nutrientGeneration : Int)
    (hthreat : 0 < localThreat)
    (hstag : ¬ (isStagnant = true ∧ 30 ≤ nutrients))
    (htick : (400 ≤ tick ∧ tick < 700) ∨ (700 ≤ tick ∧ nutrients < 1000)) :
    localThreat + 3 ≤ aggressiveSpawnerProduction tick localThreat sporeCount
      nutrients myTerritoryCount totalTiles isStagnant nutrientGeneration := by
  rcases htick with ⟨h1, h2⟩ | ⟨h1, h2⟩ <;>
    · unfold aggressiveSpawnerProduction
      split_ifs <;>
        first
          | omega
          | exact le_max_left _ _

/-- Witness for C6 (amended) at a concrete input. -/
theorem claimC6_witness :
    (5 : Int) + 3 ≤ aggressiveSpawnerProduction 500 5 0 0 0 0 false 0 :=
  claimC6 500 5 0 0 0 0 false 0 (by norm_num) (by simp)
    (Or.inl ⟨by norm_num, by norm_num⟩)

/-! ### Claim C5 (site selection) -/

/-- The selection rule as the spec words it: among the eligible candidates
(only cells already holding a facility are excluded) return the
maximum-scoring one, ties broken by encounter order; an empty pool yields
none. Used to compare `select_best_site` against the spec. -/
def firstArgmaxSite (score : Point → Int) (elig : List Point) : Option Point :=
  elig.foldl (fun acc c =>
    match acc with
    | none => some c
    | some b => if score c > score b then some c else some b) none

theorem firstArgmax_fold_eq (f : Point → Int) (spos : List Point) :
    ∀ (cands : List Point) (accOpt : Option Point) (accScore : Int),
      (match accOpt with
       | none => accScore = -(10 ^ 9 : Int)
       | some b => accScore = f b ∧ -(10 ^ 9 : Int) < f b) →
      (∀ c ∈ cands, c ∉ spos → -(10 ^ 9 : Int) < f c) →
      (cands.foldl (fun (acc : Option Point × Int) pt =>
          if pt ∈ spos then acc
          else if f pt > acc.2 then (some pt, f pt) else acc) (accOpt, accScore)).1 =
        (cands.filter (fun c => decide (c ∉ spos))).foldl
          (fun acc c => match acc with
            | none => some c
            | some b => if f c > f b then some c else some b) accOpt := by
  intro cands
  induction cands with
  | nil =>
    intro accOpt accScore hrel _
    cases accOpt <;> rfl
  | cons c cs ih =>
    intro accOpt accScore hrel hcands
    by_cases hc : c ∈ spos
    · have hfil : List.filter (fun x => decide (x ∉ spos)) (c :: cs) =
          List.filter (fun x => decide (x ∉ spos)) cs := by
        simp [List.filter_cons, hc]
      rw [hfil]
      simp only [List.foldl_cons, if_pos hc]
      exact ih accOpt accScore hrel
        (fun d hd hds => hcands d (List.mem_cons_of_mem c hd) hds)
    · have hfil : List.filter (fun x => decide (x ∉ spos)) (c :: cs) =
          c :: List.filter (fun x => decide (x ∉ spos)) cs := by
        simp [List.filter_cons, hc]
      rw [hfil]
      simp only [List.foldl_cons, if_neg hc]
      cases accOpt with
      | none =>
        have hacc : accScore = -(10 ^ 9 : Int) := hrel
        have hgt : f c > accScore := by
          rw [hacc]; exact hcands c (List.mem_cons_self c cs) hc
        rw [if_pos hgt]
        exact ih (some c) (f c)
          ⟨rfl, hacc ▸ hgt⟩
          (fun d hd hds => hcands d (List.mem_cons_of_mem c hd) hds)
      | some b =>
        obtain ⟨hacc, hb⟩ := hrel
        subst hacc
        have hmatch : (match some b with
            | none => some c
            | some b => if f c > f b then some c else some b) =
            (if f c > f b then some c else some b) := rfl
        rw [hmatch]
        by_cases hfc : f c > f b
        · rw [if_pos hfc, if_pos hfc]
          exact ih (some c) (f c) ⟨rfl, lt_trans hb hfc⟩
            (fun d hd hds => hcands d (List.mem_cons_of_mem c hd) hds)
        · rw [if_neg hfc, if_neg hfc]
          exact ih (some b) (f b) ⟨rfl, hb⟩
            (fun d hd hds => hcands d (List.mem_cons_of_mem c hd) hds)

/-- C5 counterexample: a lone candidate not holding a facility whose score is
below the `-10^9` sentinel (huge threat against a huge builder biomass) is
silently dropped — `select_best_site` returns none although the candidate
pool of non-facility cells is nonempty. -/
theorem claimC5_counterexample :
    selectBestSite [⟨0, 0⟩] (fun _ => 0) (fun _ => 0) (fun _ => 0)
        (fun _ => 50000000) (fun _ _ => 0) (fun _ => 0) (fun _ => 0)
        100000000 1 false [] 0 "large" false = none ∧
      ([(⟨0, 0⟩ : Point)].filter (fun c => decide (c ∉ ([] : List Point)))) =
        [⟨0, 0⟩] := by
  exact ⟨rfl, rfl⟩

/-- C5 (amended): provided every non-facility candidate scores above the
`-10^9` sentinel (true for all game-realistic magnitudes), `select_best_site`
excludes only cells in `spawner_positions` and returns the first
maximum-scoring remaining candidate; an empty pool yields none. -/
theorem claimC5 (candidateTiles : List Point)
    (tileValue tileOwner tileBiomass threatAt : Point → Int)
    (enemyDensity : Point → Int → Int) (minEnemyDistFn adjacentEnemyMaxFn : Point → Int)
    (builderBiomass myTeamId : Int) (isSecondSpawner : Bool)
    (spawnerPositions : List Point) (tick : Int) (mapType : String)
    (isEmergency : Bool)
    (hscore : ∀ c ∈ candidateTiles, c ∉ spawnerPositions →
      -(10 ^ 9 : Int) < scoreSpawnerSite c tileValue tileOwner tileBiomass threatAt
        enemyDensity minEnemyDistFn adjacentEnemyMaxFn builderBiomass myTeamId
        isSecondSpawner spawnerPositions tick mapType isEmergency) :
    selectBestSite candidateTiles tileValue tileOwner tileBiomass threatAt
        enemyDensity minEnemyDistFn adjacentEnemyMaxFn builderBiomass myTeamId
        isSecondSpawner spawnerPositions tick mapType isEmergency =
      firstArgmaxSite
        (fun c => scoreSpawnerSite c tileValue tileOwner tileBiomass threatAt
          enemyDensity minEnemyDistFn adjacentEnemyMaxFn builderBiomass myTeamId
          isSecondSpawner spawnerPositions tick mapType isEmergency)
        (candidateTiles.filter (fun c => decide (c ∉ spawnerPositions))) := by
  unfold selectBestSite firstArgmaxSite
  exact firstArgmax_fold_eq _ spawnerPositions candidateTiles none _ rfl hscore

/-- Witness for C5 (amended) at a concrete two-candidate input. -/
theorem claimC5_witness :
    selectBestSite [⟨0, 0⟩, ⟨1, 0⟩] (fun _ => 0) (fun _ => 0) (fun _ => 0)
        (fun _ => 0) (fun _ _ => 0) (fun _ => 0) (fun _ => 0) 5 1 false [] 0
        "large" false =
      firstArgmaxSite
        (fun c => scoreSpawnerSite c (fun _ => 0) (fun _ => 0) (fun _ => 0)
          (fun _ => 0) (fun _ _ => 0) (fun _ => 0) (fun _ => 0) 5 1 false [] 0
          "large" false)
        ([⟨0, 0⟩, ⟨1, 0⟩].filter (fun c => decide (c ∉ ([] : List Point)))) :=
  claimC5 [⟨0, 0⟩, ⟨1, 0⟩] (fun _ => 0) (fun _ => 0) (fun _ => 0) (fun _ => 0)
    (fun _ _ => 0) (fun _ => 0) (fun _ => 0) 5 1 false [] 0 "large" false
    (by decide)

/-! ### Claim C7 (combat targeting) -/

theorem foldl_mem_prop {β γ : Type} (P : γ → Prop) (step : List γ → β → List γ) :
    ∀ (l : List β), (∀ acc b, b ∈ l → ∀ x ∈ step acc b, x ∈ acc ∨ P x) →
      ∀ acc x, x ∈ l.foldl step acc → x ∈ acc ∨ P x := by
  intro l
  induction l with
  | nil => intro _ acc x hx; exact Or.inl hx
  | cons b bs ih =>
    intro hstep acc x hx
    simp only [List.foldl_cons] at hx
    rcases ih (fun acc2 b2 hb2 => hstep acc2 b2 (List.mem_cons_of_mem b hb2))
        (step acc b) x hx with h1 | h2
    · exact hstep acc b (List.mem_cons_self b bs) x h1
    · exact Or.inr h2

/-- What the combat-targeting loops guarantee of every produced opportunity
`(target, profit, attacker id, distance)`: the attacker is the nearest
actionable non-builder, non-used spore strong enough for the target (margin
> 1 for enemies, > 0 for neutrals), the distance cap is 10 for enemies and 8
for neutrals, and the profit is the tile's nutrient value plus the enemy's
biomass (resp. half the neutral's, floor division). -/
def combatTargetOK (actionableSpores : List Spore)
    (enemyList neutralSpores : List (Point × Int))
    (builderIds usedSpores : List String) (tileValue : Point → Int)
    (t : Point × Int × String × Int) : Prop :=
  (∃ e ∈ enemyList, ∃ s ∈ actionableSpores,
    s.id ∉ builderIds ∧ s.id ∉ usedSpores ∧ e.2 + 1 < s.biomass ∧
    t = (e.1, tileValue e.1 + e.2, s.id, manhattan s.position e.1) ∧
    manhattan s.position e.1 ≤ 10 ∧
    (∀ s' ∈ actionableSpores, s'.id ∉ builderIds → s'.id ∉ usedSpores →
      e.2 + 1 < s'.biomass →
      manhattan s.position e.1 ≤ manhattan s'.position e.1)) ∨
  (∃ n ∈ neutralSpores, ∃ s ∈ actionableSpores,
    s.id ∉ builderIds ∧ s.id ∉ usedSpores ∧ n.2 < s.biomass ∧
    t = (n.1, tileValue n.1 + pydiv n.2 2, s.id, manhattan s.position n.1) ∧
    manhattan s.position n.1 ≤ 8 ∧
    (∀ s' ∈ actionableSpores, s'.id ∉ builderIds → s'.id ∉ usedSpores →
      n.2 < s'.biomass →
      manhattan s.position n.1 ≤ manhattan s'.position n.1))

theorem combatEnemyStep_mem (actionableSpores : List Spore)
    (builderIds usedSpores : List String) (tileValue : Point → Int)
    (ts : List (Point × Int × String × Int)) (e : Point × Int)
    (x : Point × Int × String × Int)
    (hx : x ∈ combatEnemyStep actionableSpores builderIds usedSpores tileValue ts e) :
    x ∈ ts ∨ ∃ s ∈ actionableSpores,
      s.id ∉ builderIds ∧ s.id ∉ usedSpores ∧ e.2 + 1 < s.biomass ∧
      x = (e.1, tileValue e.1 + e.2, s.id, manhattan s.position e.1) ∧
      manhattan s.position e.1 ≤ 10 ∧
      (∀ s' ∈ actionableSpores, s'.id ∉ builderIds → s'.id ∉ usedSpores →
        e.2 + 1 < s'.biomass →
        manhattan s.position e.1 ≤ manhattan s'.position e.1) := by
  unfold combatEnemyStep at hx
  cases hmin : pyMinBy (fun s => manhattan s.position e.1)
      (actionableSpores.filter (fun s =>
        decide (s.id ∉ builderIds ∧ s.id ∉ usedSpores ∧ s.biomass > e.2 + 1))) with
  | none =>
    rw [hmin] at hx
    exact Or.inl hx
  | some nearest =>
    rw [hmin] at hx
    dsimp only at hx
    by_cases hd : manhattan nearest.position e.1 ≤ 10
    · rw [if_pos hd] at hx
      rcases List.mem_append.mp hx with h1 | h2
      · exact Or.inl h1
      · right
        have hmem := pyMinBy_mem _ _ _ hmin
        rw [List.mem_filter] at hmem
        obtain ⟨hact, hprops⟩ := hmem
        have hp := of_decide_eq_true hprops
        refine ⟨nearest, hact, hp.1, hp.2.1, hp.2.2, List.mem_singleton.mp h2, hd, ?_⟩
        intro s' hs' h1' h2' h3'
        exact pyMinBy_le _ _ _ hmin s'
          (List.mem_filter.mpr ⟨hs', decide_eq_true ⟨h1', h2', h3'⟩⟩)
    · rw [if_neg hd] at hx
      exact Or.inl hx

theorem combatNeutralStep_mem (actionableSpores : List Spore)
    (builderIds usedSpores : List String) (tileValue : Point → Int)
    (ts : List (Point × Int × String × Int)) (n : Point × Int)
    (x : Point × Int × String × Int)
    (hx : x ∈ combatNeutralStep actionableSpores builderIds usedSpores tileValue ts n) :
    x ∈ ts ∨ ∃ s ∈ actionableSpores,
      s.id ∉ builderIds ∧ s.id ∉ usedSpores ∧ n.2 < s.biomass ∧
      x = (n.1, tileValue n.1 + pydiv n.2 2, s.id, manhattan s.position n.1) ∧
      manhattan s.position n.1 ≤ 8 ∧
      (∀ s' ∈ actionableSpores, s'.id ∉ builderIds → s'.id ∉ usedSpores →
        n.2 < s'.biomass →
        manhattan s.position n.1 ≤ manhattan s'.position n.1) := by
  unfold combatNeutralStep at hx
  cases hmin : pyMinBy (fun s => manhattan s.position n.1)
      (actionableSpores.filter (fun s =>
        decide (s.id ∉ builderIds ∧ s.id ∉ usedSpores ∧ s.biomass > n.2))) with
  | none =>
    rw [hmin] at hx
    exact Or.inl hx
  | some nearest =>
    rw [hmin] at hx
    dsimp only at hx
    by_cases hd : manhattan nearest.position n.1 ≤ 8
    · rw [if_pos hd] at hx
      rcases List.mem_append.mp hx with h1 | h2
      · exact Or.inl h1
      · right
        have hmem := pyMinBy_mem _ _ _ hmin
        rw [List.mem_filter] at hmem
        obtain ⟨hact, hprops⟩ := hmem
        have hp := of_decide_eq_true hprops
        refine ⟨nearest, hact, hp.1, hp.2.1, hp.2.2, List.mem_singleton.mp h2, hd, ?_⟩
        intro s' hs' h1' h2' h3'
        exact pyMinBy_le _ _ _ hmin s'
          (List.mem_filter.mpr ⟨hs', decide_eq_true ⟨h1', h2', h3'⟩⟩)
    · rw [if_neg hd] at hx
      exact Or.inl hx

theorem commitHunterActions_mem (tl : Nat → Int) :
    ∀ (ts : List (Point × Int × String × Int)) (r : HunterResult) (a : BotAction),
      a ∈ (commitHunterActions tl ts r).actions →
      a ∈ r.actions ∨ ∃ t ∈ ts, 20 < t.2.1 ∧ a = BotAction.sporeMoveTo t.2.2.1 t.1 := by
  intro ts
  induction ts with
  | nil => intro r a ha; exact Or.inl ha
  | cons t rest ih =>
    intro r a ha
    unfold commitHunterActions at ha
    split at ha
    · exact Or.inl ha
    · split at ha
      · rename_i hprofit
        rcases ih _ a ha with h1 | ⟨t2, ht2, h2⟩
        · simp only [List.mem_append, List.mem_singleton] at h1
          rcases h1 with h1a | h1b
          · exact Or.inl h1a
          · exact Or.inr ⟨t, List.mem_cons_self t rest, hprofit, h1b⟩
        · exact Or.inr ⟨t2, List.mem_cons_of_mem t ht2, h2⟩
      · rcases ih _ a ha with h1 | ⟨t2, ht2, h2⟩
        · exact Or.inl h1
        · exact Or.inr ⟨t2, List.mem_cons_of_mem t ht2, h2⟩

/-- C7 counterexample: three enemies at distances 1, 2 and 3 from two strong
attackers.  The kept opportunity list contains a third target with profit
23 > 20 and its own fresh attacker "B", yet the committed actions stop at the
second target (whose attacker "A" is already used), so no action for "B" is
ever emitted — contradicting "a move-to-target action is committed for each
kept opportunity whose profit exceeds 20". -/
theorem claimC7_counterexample :
    findCombatTargets [⟨"A", ⟨0, 0⟩, 10, 1⟩, ⟨"B", ⟨9, 0⟩, 10, 1⟩]
        [(⟨1, 0⟩, 3), (⟨2, 0⟩, 3), (⟨6, 0⟩, 3)] [] [] [] (fun _ => 20) false =
      [(⟨1, 0⟩, 23, "A", 1), (⟨2, 0⟩, 23, "A", 2), (⟨6, 0⟩, 23, "B", 3)] ∧
    (20 : Int) < 23 ∧
    (commitHunterActions (fun _ => 1)
        (findCombatTargets [⟨"A", ⟨0, 0⟩, 10, 1⟩, ⟨"B", ⟨9, 0⟩, 10, 1⟩]
          [(⟨1, 0⟩, 3), (⟨2, 0⟩, 3), (⟨6, 0⟩, 3)] [] [] [] (fun _ => 20) false)
        ⟨0, [], [], []⟩).actions =
      [BotAction.sporeMoveTo "A" ⟨1, 0⟩] := by
  have hrank1 : combatRankGE (⟨1, 0⟩, 23, "A", 1) (⟨2, 0⟩, 23, "A", 2) = true := by
    simp only [combatRankGE, decide_eq_true_eq]
    norm_num
  have hrank2 : combatRankGE (⟨2, 0⟩, 23, "A", 2) (⟨6, 0⟩, 23, "B", 3) = true := by
    simp only [combatRankGE, decide_eq_true_eq]
    norm_num
  have heq : findCombatTargets [⟨"A", ⟨0, 0⟩, 10, 1⟩, ⟨"B", ⟨9, 0⟩, 10, 1⟩]
      [(⟨1, 0⟩, 3), (⟨2, 0⟩, 3), (⟨6, 0⟩, 3)] [] [] [] (fun _ => 20) false =
      [(⟨1, 0⟩, 23, "A", 1), (⟨2, 0⟩, 23, "A", 2), (⟨6, 0⟩, 23, "B", 3)] := by
    have hfold : [((⟨1, 0⟩ : Point), (3 : Int)), (⟨2, 0⟩, 3), (⟨6, 0⟩, 3)].foldl
        (combatEnemyStep [⟨"A", ⟨0, 0⟩, 10, 1⟩, ⟨"B", ⟨9, 0⟩, 10, 1⟩] [] []
          (fun _ => 20)) [] =
        [(⟨1, 0⟩, 23, "A", 1), (⟨2, 0⟩, 23, "A", 2), (⟨6, 0⟩, 23, "B", 3)] := by
      decide
    have hstart : findCombatTargets [⟨"A", ⟨0, 0⟩, 10, 1⟩, ⟨"B", ⟨9, 0⟩, 10, 1⟩]
        [(⟨1, 0⟩, 3), (⟨2, 0⟩, 3), (⟨6, 0⟩, 3)] [] [] [] (fun _ => 20) false =
        (ssort combatRankGE
          ([((⟨1, 0⟩ : Point), (3 : Int)), (⟨2, 0⟩, 3), (⟨6, 0⟩, 3)].foldl
            (combatEnemyStep [⟨"A", ⟨0, 0⟩, 10, 1⟩, ⟨"B", ⟨9, 0⟩, 10, 1⟩] [] []
              (fun _ => 20)) [])).take 5 := rfl
    rw [hstart, hfold]
    simp [ssort, insSorted, hrank1, hrank2]
  refine ⟨heq, by norm_num, ?_⟩
  rw [heq]
  decide

/-- C7 (amended): the targeting phase keeps at most five opportunities, each
produced by the nearest sufficiently strong fresh attacker within the
distance caps with profit `nutrient + biomass` (resp. `+ biomass // 2`),
ranked by `profit / (distance + 1)`; the commit loop then walks them in rank
order and every committed action is a move-to aimed at a kept target with
profit over 20 — but commitment stops at a time-out or at the first
opportunity whose attacker already received an action, so a profitable
opportunity may be skipped. -/
theorem claimC7 (actionableSpores : List Spore)
    (enemyList neutralSpores : List (Point × Int))
    (builderIds usedSpores : List String) (tileValue : Point → Int)
    (survivalMode : Bool) (ts : List (Point × Int × String × Int))
    (hts : ts = findCombatTargets actionableSpores enemyList neutralSpores
      builderIds usedSpores tileValue survivalMode) :
    ts.length ≤ 5 ∧
    (∀ t ∈ ts, combatTargetOK actionableSpores enemyList neutralSpores
      builderIds usedSpores tileValue t) ∧
    List.Pairwise (fun a b => combatRankGE a b = true) ts ∧
    (∀ (tl : Nat → Int) (r : HunterResult) (a : BotAction),
      a ∈ (commitHunterActions tl ts r).actions →
      a ∈ r.actions ∨ ∃ t ∈ ts, 20 < t.2.1 ∧ a = BotAction.sporeMoveTo t.2.2.1 t.1) := by
  subst hts
  refine ⟨?_, ?_, ?_, fun tl r a ha => commitHunterActions_mem tl _ r a ha⟩
  · unfold findCombatTargets
    split
    · simp
    · simp [List.length_take]
  · intro t ht
    unfold findCombatTargets at ht
    split at ht
    · exact absurd ht (List.not_mem_nil t)
    · have h1 := List.take_subset 5 _ ht
      have h2 := (mem_ssort _ _ _).mp h1
      rcases foldl_mem_prop
          (combatTargetOK actionableSpores enemyList neutralSpores builderIds
            usedSpores tileValue) _ neutralSpores
          (fun acc n hn x hx => by
            rcases combatNeutralStep_mem actionableSpores builderIds usedSpores
              tileValue acc n x hx with hacc | hok
            · exact Or.inl hacc
            · exact Or.inr (Or.inr ⟨n, hn, hok⟩)) _ t h2 with h3 | h4
      · rcases foldl_mem_prop
            (combatTargetOK actionableSpores enemyList neutralSpores builderIds
              usedSpores tileValue) _ enemyList
            (fun acc e he x hx => by
              rcases combatEnemyStep_mem actionableSpores builderIds usedSpores
                tileValue acc e x hx with hacc | hok
              · exact Or.inl hacc
              · exact Or.inr (Or.inl ⟨e, he, hok⟩)) _ t h3 with h5 | h6
        · exact absurd h5 (List.not_mem_nil t)
        · exact h6
      · exact h4
  · unfold findCombatTargets
    split
    · simp
    · refine List.Pairwise.sublist (List.take_sublist 5 _) ?_
      apply pairwise_ssort
      · intro a b
        unfold combatRankGE
        rcases le_total ((b.2.1 : Rat) / ((b.2.2.2 : Rat) + 1))
            ((a.2.1 : Rat) / ((a.2.2.2 : Rat) + 1)) with h | h
        · exact Or.inl (decide_eq_true h)
        · exact Or.inr (decide_eq_true h)
      · intro a b c hab hbc
        unfold combatRankGE at hab hbc ⊢
        exact decide_eq_true (le_trans (of_decide_eq_true hbc) (of_decide_eq_true hab))

/-- Witness for C7 (amended) at the concrete three-enemy scenario. -/
theorem claimC7_witness :
    (findCombatTargets [⟨"A", ⟨0, 0⟩, 10, 1⟩, ⟨"B", ⟨9, 0⟩, 10, 1⟩]
        [(⟨1, 0⟩, 3), (⟨2, 0⟩, 3), (⟨6, 0⟩, 3)] [] [] [] (fun _ => 20)
        false).length ≤ 5 ∧
    (∀ t ∈ findCombatTargets [⟨"A", ⟨0, 0⟩, 10, 1⟩, ⟨"B", ⟨9, 0⟩, 10, 1⟩]
        [(⟨1, 0⟩, 3), (⟨2, 0⟩, 3), (⟨6, 0⟩, 3)] [] [] [] (fun _ => 20) false,
      combatTargetOK [⟨"A", ⟨0, 0⟩, 10, 1⟩, ⟨"B", ⟨9, 0⟩, 10, 1⟩]
        [(⟨1, 0⟩, 3), (⟨2, 0⟩, 3), (⟨6, 0⟩, 3)] [] [] [] (fun _ => 20) t) ∧
    List.Pairwise (fun a b => combatRankGE a b = true)
      (findCombatTargets [⟨"A", ⟨0, 0⟩, 10, 1⟩, ⟨"B", ⟨9, 0⟩, 10, 1⟩]
        [(⟨1, 0⟩, 3), (⟨2, 0⟩, 3), (⟨6, 0⟩, 3)] [] [] [] (fun _ => 20) false) ∧
    (∀ (tl : Nat → Int) (r : HunterResult) (a : BotAction),
      a ∈ (commitHunterActions tl
        (findCombatTargets [⟨"A", ⟨0, 0⟩, 10, 1⟩, ⟨"B", ⟨9, 0⟩, 10, 1⟩]
          [(⟨1, 0⟩, 3), (⟨2, 0⟩, 3), (⟨6, 0⟩, 3)] [] [] [] (fun _ => 20) false)
        r).actions →
      a ∈ r.actions ∨
        ∃ t ∈ findCombatTargets [⟨"A", ⟨0, 0⟩, 10, 1⟩, ⟨"B", ⟨9, 0⟩, 10, 1⟩]
          [(⟨1, 0⟩, 3), (⟨2, 0⟩, 3), (⟨6, 0⟩, 3)] [] [] [] (fun _ => 20) false,
          20 < t.2.1 ∧ a = BotAction.sporeMoveTo t.2.2.1 t.1) :=
  claimC7 [⟨"A", ⟨0, 0⟩, 10, 1⟩, ⟨"B", ⟨9, 0⟩, 10, 1⟩]
    [(⟨1, 0⟩, 3), (⟨2, 0⟩, 3), (⟨6, 0⟩, 3)] [] [] [] (fun _ => 20) false _ rfl

/-! ### Claim C2 (movement never targets lethal-threat cells) -/

theorem moveDirScore_safe (ctx : MoveCtx) (sp : Spore) (isDefender isHunter : Bool)
    (laneTarget prevPt : Option Point) (pioneerPenalty : Int)
    (defendCenter : Option Point) (passId : Nat) (d : Point) (s : Int)
    (h : moveDirScore ctx sp isDefender isHunter laneTarget prevPt pioneerPenalty
      defendCenter passId d = some s) :
    dget ctx.threatMap ⟨sp.position.x + d.x, sp.position.y + d.y⟩ 0 < sp.biomass := by
  simp only [moveDirScore] at h
  split at h
  · exact absurd h (by simp)
  · split at h
    · exact absurd h (by simp)
    · rename_i hth
      exact lt_of_not_ge hth

theorem foldl_best_some (f : Point → Option Int) :
    ∀ (l : List Point) (acc : Option Point × Int),
      (∀ d, acc.1 = some d → ∃ s, f d = some s) →
      ∀ d, ((l.foldl (fun acc d => match f d with
          | none => acc
          | some score => if score > acc.2 then (some d, score) else acc) acc).1 =
        some d) → ∃ s, f d = some s := by
  intro l
  induction l with
  | nil => intro acc hacc d h; exact hacc d h
  | cons x xs ih =>
    intro acc hacc d h
    simp only [List.foldl_cons] at h
    refine ih _ ?_ d h
    intro d1 h1
    cases hsc : f x with
    | none =>
      rw [hsc] at h1
      exact hacc d1 h1
    | some sc =>
      rw [hsc] at h1
      dsimp only at h1
      split at h1
      · have hx : x = d1 := by simpa using h1
        exact ⟨sc, hx ▸ hsc⟩
      · exact hacc d1 h1

theorem bestDirForPass_some (ctx : MoveCtx) (sp : Spore) (isDefender isHunter : Bool)
    (laneTarget prevPt : Option Point) (pioneerPenalty : Int)
    (defendCenter : Option Point) (passId : Nat) (d : Point)
    (h : (bestDirForPass ctx sp isDefender isHunter laneTarget prevPt pioneerPenalty
      defendCenter passId).1 = some d) :
    ∃ s, moveDirScore ctx sp isDefender isHunter laneTarget prevPt pioneerPenalty
      defendCenter passId d = some s := by
  unfold bestDirForPass at h
  exact foldl_best_some
    (fun d => moveDirScore ctx sp isDefender isHunter laneTarget prevPt
      pioneerPenalty defendCenter passId d)
    DIRS (none, -(10 ^ 18 : Int)) (fun d0 h0 => by simp at h0) d h

theorem chooseMoveDir_safe (ctx : MoveCtx) (sp : Spore) (isDefender isHunter : Bool)
    (laneTarget prevPt : Option Point) (pioneerPenalty : Int)
    (defendCenter : Option Point) (preferZeroCost : Bool) (d : Point)
    (h : chooseMoveDir ctx sp isDefender isHunter laneTarget prevPt pioneerPenalty
      defendCenter preferZeroCost = some d) :
    dget ctx.threatMap ⟨sp.position.x + d.x, sp.position.y + d.y⟩ 0 < sp.biomass := by
  simp only [chooseMoveDir] at h
  split at h
  · split at h
    · obtain ⟨s, hs⟩ := bestDirForPass_some ctx sp isDefender isHunter laneTarget
        prevPt pioneerPenalty defendCenter 0 d h
      exact moveDirScore_safe ctx sp isDefender isHunter laneTarget prevPt
        pioneerPenalty defendCenter 0 d s hs
    · obtain ⟨s, hs⟩ := bestDirForPass_some ctx sp isDefender isHunter laneTarget
        prevPt pioneerPenalty defendCenter 1 d h
      exact moveDirScore_safe ctx sp isDefender isHunter laneTarget prevPt
        pioneerPenalty defendCenter 1 d s hs
  · obtain ⟨s, hs⟩ := bestDirForPass_some ctx sp isDefender isHunter laneTarget
      prevPt pioneerPenalty defendCenter 1 d h
    exact moveDirScore_safe ctx sp isDefender isHunter laneTarget prevPt
      pioneerPenalty defendCenter 1 d s hs

theorem movementStep_cases (ctx : MoveCtx) (ms : MoveState) (sp : Spore) :
    ((movementStep ctx ms sp).actions = ms.actions ∧
      (movementStep ctx ms sp).usedSpores = ms.usedSpores) ∨
    (sp.id ∉ ms.usedSpores ∧
      (movementStep ctx ms sp).usedSpores = sInsert ms.usedSpores sp.id ∧
      ((∃ d, (movementStep ctx ms sp).actions =
            ms.actions ++ [BotAction.sporeMove sp.id d] ∧
          dget ctx.threatMap ⟨sp.position.x + d.x, sp.position.y + d.y⟩ 0 < sp.biomass) ∨
       (∃ p, (movementStep ctx ms sp).actions =
            ms.actions ++ [BotAction.sporeMoveTo sp.id p]))) := by
  by_cases hused : sp.id ∈ ms.usedSpores ∨ sp.id ∈ ctx.builderIds
  · left
    simp [movementStep, if_pos hused]
  · have hnotused : sp.id ∉ ms.usedSpores := fun hc => hused (Or.inl hc)
    simp only [movementStep, if_neg hused]
    split
    · exact Or.inl ⟨rfl, rfl⟩
    · split
      · rename_i d heq
        right
        refine ⟨hnotused, rfl, Or.inl ⟨d, rfl, ?_⟩⟩
        exact chooseMoveDir_safe ctx sp _ _ _ _ _ _ _ d heq
      · rename_i heq
        split
        · right
          exact ⟨hnotused, rfl, Or.inr ⟨_, rfl⟩⟩
        · split
          · rename_i lt hlt
            split
            · right
              exact ⟨hnotused, rfl, Or.inr ⟨lt, rfl⟩⟩
            · exact Or.inl ⟨rfl, rfl⟩
          · exact Or.inl ⟨rfl, rfl⟩

theorem movementLoop_append (tl : Nat → Int) (ctx : MoveCtx) :
    ∀ (l : List Spore) (ms : MoveState),
      ∃ extra, (movementLoop tl ctx l ms).actions = ms.actions ++ extra ∧
        ∀ a ∈ extra, ∃ sp ∈ l,
          ((∃ d, a = BotAction.sporeMove sp.id d ∧
              dget ctx.threatMap ⟨sp.position.x + d.x, sp.position.y + d.y⟩ 0 < sp.biomass) ∨
           (∃ p, a = BotAction.sporeMoveTo sp.id p)) := by
  intro l
  induction l with
  | nil =>
    intro ms
    exact ⟨[], by simp [movementLoop], by simp⟩
  | cons sp rest ih =>
    intro ms
    unfold movementLoop
    split
    · exact ⟨[], by simp, by simp⟩
    · obtain ⟨extra, hex, hall⟩ := ih (movementStep ctx { ms with k := ms.k + 1 } sp)
      rcases movementStep_cases ctx { ms with k := ms.k + 1 } sp with
        ⟨ha, _⟩ | ⟨_, _, hshape⟩
      · refine ⟨extra, ?_, ?_⟩
        · rw [hex, ha]
        · intro a hane
          obtain ⟨sp2, hsp2, hsh⟩ := hall a hane
          exact ⟨sp2, List.mem_cons_of_mem sp hsp2, hsh⟩
      · rcases hshape with ⟨d, hd, hsafe⟩ | ⟨p, hp⟩
        · refine ⟨BotAction.sporeMove sp.id d :: extra, ?_, ?_⟩
          · rw [hex, hd]
            simp
          · intro a ha
            rcases List.mem_cons.mp ha with rfl | ha2
            · exact ⟨sp, List.mem_cons_self sp rest, Or.inl ⟨d, rfl, hsafe⟩⟩
            · obtain ⟨sp2, hsp2, hsh⟩ := hall a ha2
              exact ⟨sp2, List.mem_cons_of_mem sp hsp2, hsh⟩
        · refine ⟨BotAction.sporeMoveTo sp.id p :: extra, ?_, ?_⟩
          · rw [hex, hp]
            simp
          · intro a ha
            rcases List.mem_cons.mp ha with rfl | ha2
            · exact ⟨sp, List.mem_cons_self sp rest, Or.inr ⟨p, rfl⟩⟩
            · obtain ⟨sp2, hsp2, hsh⟩ := hall a ha2
              exact ⟨sp2, List.mem_cons_of_mem sp hsp2, hsh⟩

/-- C2: every direction-move action committed by the movement phase
(`_manage_spore_movement`) targets a cell whose threat is strictly below the
mover's biomass — the hard self-destruction filter is enforced throughout the
search; only the final move-to fallbacks are exempt from it. -/
theorem claimC2 (tl : Nat → Int) (ctx : MoveCtx) (ms : MoveState) :
    ∃ extra, (manageSporeMovement tl ctx ms).actions = ms.actions ++ extra ∧
      ∀ a ∈ extra, ∀ i d, a = BotAction.sporeMove i d →
        ∃ sp ∈ ctx.actionableSorted, sp.id = i ∧
          dget ctx.threatMap ⟨sp.position.x + d.x, sp.position.y + d.y⟩ 0 < sp.biomass := by
  obtain ⟨extra, hex, hall⟩ := movementLoop_append tl ctx ctx.actionableSorted ms
  refine ⟨extra, hex, ?_⟩
  intro a ha i d hai
  obtain ⟨sp, hsp, hsh⟩ := hall a ha
  rcases hsh with ⟨d2, hd2, hsafe⟩ | ⟨p, hp⟩
  · rw [hai] at hd2
    obtain ⟨hid, hdir⟩ := BotAction.sporeMove.inj hd2
    subst hid
    subst hdir
    exact ⟨sp, hsp, rfl, hsafe⟩
  · rw [hai] at hp
    exact absurd hp (by simp)

/-- Witness for C2 at a concrete movement context (one free spore on an
empty 3×3 map). -/
theorem claimC2_witness :
    ∃ extra,
      (manageSporeMovement (fun _ => 85000)
          { actionableSorted := [⟨"a", ⟨1, 1⟩, 5, 1⟩], defenderIds := [],
            hunterIds := [], builderIds := [], myCenter := ⟨0, 0⟩,
            laneTargets := [], threatMap := [], enemyBiomassAt := [],
            myBiomassAt := [], tileValue := fun _ => 0, tileOwner := fun _ => 0,
            tileBiomass := fun _ => 0, width := 3, height := 3, myTeamId := 1,
            penalty2Biomass := 80, isStagnant := false, survivalMode := false,
            spawnerPts := [], mapType := "open_rush", tickCount := 1 }
          ⟨0, [], [], initBot⟩).actions = [] ++ extra ∧
      ∀ a ∈ extra, ∀ i d, a = BotAction.sporeMove i d →
        ∃ sp ∈ [(⟨"a", ⟨1, 1⟩, 5, 1⟩ : Spore)], sp.id = i ∧
          dget ([] : List (Point × Int)) ⟨sp.position.x + d.x, sp.position.y + d.y⟩ 0 <
            sp.biomass :=
  claimC2 (fun _ => 85000)
    { actionableSorted := [⟨"a", ⟨1, 1⟩, 5, 1⟩], defenderIds := [],
      hunterIds := [], builderIds := [], myCenter := ⟨0, 0⟩,
      laneTargets := [], threatMap := [], enemyBiomassAt := [],
      myBiomassAt := [], tileValue := fun _ => 0, tileOwner := fun _ => 0,
      tileBiomass := fun _ => 0, width := 3, height := 3, myTeamId := 1,
      penalty2Biomass := 80, isStagnant := false, survivalMode := false,
      spawnerPts := [], mapType := "open_rush", tickCount := 1 }
    ⟨0, [], [], initBot⟩

/-! ### Claim C9 (exhausted time budget before the movement phase) -/

/-- C9: when every sampled `time_left` value is at or below the movement
cutoff (0.002 s, i.e. 2000 µs), the movement phase appends no action, and
`get_next_move` returns exactly the actions committed by the earlier phases. -/
theorem claimC9 (tl : Nat → Int) (st0 : BotState) (gm : GameMessage)
    (ctx : MoveCtx) (ms : MoveState) (h : ∀ n, tl n ≤ 2000) :
    (manageSporeMovement tl ctx ms).actions = ms.actions ∧
    (getNextMove tl st0 gm).1 = preCommittedActions tl st0 gm := by
  have hloop : ∀ (c : MoveCtx) (l : List Spore) (m : MoveState),
      (movementLoop tl c l m).actions = m.actions := by
    intro c l m
    cases l with
    | nil => rfl
    | cons sp rest =>
      unfold movementLoop
      rw [if_pos (h m.k)]
  refine ⟨hloop ctx ctx.actionableSorted ms, ?_⟩
  unfold getNextMove preCommittedActions
  cases hgp : getNextMovePre tl st0 gm with
  | done acts st => rfl
  | beforeMovement ctx2 ms2 => exact hloop ctx2 ctx2.actionableSorted ms2

/-- Witness for C9 at a concrete zero-time stream and concrete inputs. -/
theorem claimC9_witness :
    (manageSporeMovement (fun _ => 0)
        { actionableSorted := [⟨"w", ⟨0, 0⟩, 4, 1⟩], defenderIds := [],
          hunterIds := [], builderIds := [], myCenter := ⟨0, 0⟩,
          laneTargets := [], threatMap := [], enemyBiomassAt := [],
          myBiomassAt := [], tileValue := fun _ => 0, tileOwner := fun _ => 0,
          tileBiomass := fun _ => 0, width := 2, height := 2, myTeamId := 1,
          penalty2Biomass := 80, isStagnant := false, survivalMode := false,
          spawnerPts := [], mapType := "open_rush", tickCount := 1 }
        ⟨0, [], [BotAction.sporeCreateSpawner "w"], initBot⟩).actions =
      [BotAction.sporeCreateSpawner "w"] ∧
    (getNextMove (fun _ => 0) initBot
        ⟨1, 1, 2, 2, [[0, 0], [0, 0]], [[0, 0], [0, 0]], [[0, 0], [0, 0]], [],
          [(1, ⟨[], [], 0, 0⟩)], []⟩).1 =
      preCommittedActions (fun _ => 0) initBot
        ⟨1, 1, 2, 2, [[0, 0], [0, 0]], [[0, 0], [0, 0]], [[0, 0], [0, 0]], [],
          [(1, ⟨[], [], 0, 0⟩)], []⟩ :=
  claimC9 (fun _ => 0) initBot
    ⟨1, 1, 2, 2, [[0, 0], [0, 0]], [[0, 0], [0, 0]], [[0, 0], [0, 0]], [],
      [(1, ⟨[], [], 0, 0⟩)], []⟩
    { actionableSorted := [⟨"w", ⟨0, 0⟩, 4, 1⟩], defenderIds := [],
      hunterIds := [], builderIds := [], myCenter := ⟨0, 0⟩,
      laneTargets := [], threatMap := [], enemyBiomassAt := [],
      myBiomassAt := [], tileValue := fun _ => 0, tileOwner := fun _ => 0,
      tileBiomass := fun _ => 0, width := 2, height := 2, myTeamId := 1,
      penalty2Biomass := 80, isStagnant := false, survivalMode := false,
      spawnerPts := [], mapType := "open_rush", tickCount := 1 }
    ⟨0, [], [BotAction.sporeCreateSpawner "w"], initBot⟩
    (fun _ => by norm_num)

/-! ### Claim C8 (builder commit step of the spawner-building phases) -/

theorem shouldBuild_cost_le (mt : String) (tick ac mb cost t n m mn : Int)
    (em : Bool)
    (h : shouldBuildFirstSpawnerV8 mt tick ac mb cost t n m = (true, mn, em)) :
    cost ≤ mn ∧ mn ≤ mb := by
  unfold shouldBuildFirstSpawnerV8 at h
  split_ifs at h <;> simp at h <;> omega

theorem exists_spore_with_max (l : List Spore) (hne : l ≠ []) :
    ∃ sp ∈ l, pyMaxD (l.map (fun s => s.biomass)) 0 ≤ sp.biomass := by
  have hmem := pyMaxD_mem (l.map (fun s => s.biomass)) 0 (by simpa using hne)
  rw [List.mem_map] at hmem
  obtain ⟨sp, hsp, hb⟩ := hmem
  exact ⟨sp, hsp, le_of_eq hb.symm⟩

theorem builderCandidateStep_mem (site : Point) (cost : Int)
    (avoid used : List String) (thr : Point → Int) (em : Bool)
    (cands : List (Int × Spore)) (sp : Spore) (x : Int × Spore)
    (hx : x ∈ builderCandidateStep site cost avoid used thr em cands sp) :
    x ∈ cands ∨ (x.2 = sp ∧ sp.id ∉ avoid ∧ sp.id ∉ used ∧ cost ≤ sp.biomass) := by
  unfold builderCandidateStep at hx
  split at hx
  · exact Or.inl hx
  · split at hx
    · exact Or.inl hx
    · rename_i hguard hbio
      rcases List.mem_append.mp hx with h1 | h2
      · exact Or.inl h1
      · right
        have hx2 : x.2 = sp := by
          rw [List.mem_singleton.mp h2]
        push_neg at hguard
        exact ⟨hx2, hguard.1, hguard.2, le_of_not_lt hbio⟩

theorem selectBuilderProgressive_some (site : Point) (spores : List Spore)
    (cost : Int) (avoid used : List String) (thr : Point → Int) (tick : Int)
    (em : Bool) (b : Spore)
    (h : selectBuilderProgressive site spores cost avoid used thr tick em = some b) :
    b ∈ spores ∧ b.id ∉ avoid ∧ b.id ∉ used ∧ cost ≤ b.biomass := by
  unfold selectBuilderProgressive at h
  cases hcs : ssort (fun a b => decide (a.1 ≥ b.1))
      (spores.foldl (builderCandidateStep site cost avoid used thr em) []) with
  | nil => rw [hcs] at h; exact absurd h (by simp)
  | cons c rest =>
    rw [hcs] at h
    have hb : b = c.2 := by simpa using h.symm
    have hcmem : c ∈ spores.foldl (builderCandidateStep site cost avoid used thr em) [] := by
      have : c ∈ ssort (fun a b => decide (a.1 ≥ b.1))
          (spores.foldl (builderCandidateStep site cost avoid used thr em) []) := by
        rw [hcs]; exact List.mem_cons_self c rest
      exact (mem_ssort _ _ _).mp this
    rcases foldl_mem_prop
        (fun x => x.2 ∈ spores ∧ x.2.id ∉ avoid ∧ x.2.id ∉ used ∧ cost ≤ x.2.biomass)
        (builderCandidateStep site cost avoid used thr em) spores
        (fun acc sp hsp x hx => by
          rcases builderCandidateStep_mem site cost avoid used thr em acc sp x hx with
            h1 | ⟨h2, h3, h4, h5⟩
          · exact Or.inl h1
          · exact Or.inr ⟨h2 ▸ hsp, h2 ▸ h3, h2 ▸ h4, h2 ▸ h5⟩)
        [] c hcmem with h1 | h2
    · exact absurd h1 (List.not_mem_nil c)
    · rw [hb]
      exact h2

theorem foldl_length_grow {β γ : Type} (step : List γ → β → List γ)
    (hmono : ∀ acc b, acc.length ≤ (step acc b).length) :
    ∀ (l : List β) (acc : List γ), acc.length ≤ (l.foldl step acc).length := by
  intro l
  induction l with
  | nil => intro acc; exact le_refl _
  | cons b bs ih => intro acc; exact le_trans (hmono acc b) (ih (step acc b))

theorem foldl_length_strict {β γ : Type} (step : List γ → β → List γ)
    (hmono : ∀ acc b, acc.length ≤ (step acc b).length) (l : List β) (b0 : β)
    (hb : b0 ∈ l) (hstrict : ∀ acc, acc.length < (step acc b0).length) :
    ∀ acc : List γ, acc.length < (l.foldl step acc).length := by
  induction l with
  | nil => exact absurd hb (List.not_mem_nil b0)
  | cons x xs ih =>
    intro acc
    rcases List.mem_cons.mp hb with rfl | hb2
    · exact lt_of_lt_of_le (hstrict acc) (foldl_length_grow step hmono xs (step acc b0))
    · exact lt_of_le_of_lt (hmono acc x) (ih hb2 (step acc x))

theorem selectBuilderProgressive_isSome (site : Point) (spores : List Spore)
    (cost : Int) (avoid used : List String) (thr : Point → Int) (tick : Int)
    (em : Bool) (sp0 : Spore) (h0 : sp0 ∈ spores) (h1 : sp0.id ∉ avoid)
    (h2 : sp0.id ∉ used) (h3 : cost ≤ sp0.biomass) :
    ∃ b, selectBuilderProgressive site spores cost avoid used thr tick em = some b := by
  have hmono : ∀ (acc : List (Int × Spore)) sp,
      acc.length ≤ (builderCandidateStep site cost avoid used thr em acc sp).length := by
    intro acc sp
    unfold builderCandidateStep
    split
    · exact le_refl _
    · split
      · exact le_refl _
      · simp
  have hstrict : ∀ acc : List (Int × Spore),
      acc.length < (builderCandidateStep site cost avoid used thr em acc sp0).length := by
    intro acc
    unfold builderCandidateStep
    rw [if_neg (by push_neg; exact ⟨h1, h2⟩), if_neg (not_lt.mpr h3)]
    simp
  have hlen := foldl_length_strict
    (builderCandidateStep site cost avoid used thr em) hmono spores sp0 h0 hstrict []
  unfold selectBuilderProgressive
  cases hcs : ssort (fun a b => decide (a.1 ≥ b.1))
      (spores.foldl (builderCandidateStep site cost avoid used thr em) []) with
  | nil =>
    have := length_ssort (fun (a b : Int × Spore) => decide (a.1 ≥ b.1))
      (spores.foldl (builderCandidateStep site cost avoid used thr em) [])
    rw [hcs] at this
    simp at this
    omega
  | cons c rest => exact ⟨c.2, rfl⟩

theorem buildFirstSpawner_commit (gm : GameMessage) (myTeam : TeamInfo)
    (actionable : List Spore) (spawnerPts : List Point)
    (eba el tm : List (Point × Int)) (tv tow tb : Point → Int)
    (bids : List String) (acts : List BotAction) (st : BotState)
    (r : BuildResult)
    (hr : r = buildFirstSpawner gm myTeam actionable spawnerPts eba el tm tv tow tb
      [] bids acts st) :
    (r.actions = acts ∧ r.builderIds = bids) ∨
    ∃ b site, b ∈ actionable ∧ r.builderIds = sInsert bids b.id ∧
      ((b.position = site ∧ myTeam.nextSpawnerCost ≤ b.biomass ∧
         r.actions = acts ++ [BotAction.sporeCreateSpawner b.id]) ∨
       (b.position ≠ site ∧ r.actions = acts ++ [BotAction.sporeMoveTo b.id site])) := by
  subst hr
  simp only [buildFirstSpawner]
  by_cases hact : actionable = []
  · rw [if_pos hact]
    exact Or.inl ⟨rfl, rfl⟩
  · rw [if_neg hact]
    rcases hdec : shouldBuildFirstSpawnerV8 st.mapType st.tickCount
        (actionable.length : Int) (pyMaxD (List.map (fun s => s.biomass) actionable) 0)
        myTeam.nextSpawnerCost (myTeam.spores.length : Int) 0 myTeam.nutrients with
      ⟨sb, mn, em⟩
    rw [hdec]
    dsimp only
    cases sb with
    | false =>
      rw [if_pos (by simp)]
      exact Or.inl ⟨rfl, rfl⟩
    | true =>
      rw [if_neg (by simp)]
      obtain ⟨hcost, hmax⟩ := shouldBuild_cost_le _ _ _ _ _ _ _ _ _ _ hdec
      split
      · exact Or.inl ⟨rfl, rfl⟩
      · rename_i locked st1 heq
        cases hb0 : selectBuilderProgressive locked actionable mn [] []
            (fun pt => dget tm pt 0) st1.tickCount em with
        | none =>
          obtain ⟨sp0, hsp0, hsp0max⟩ := exists_spore_with_max actionable hact
          obtain ⟨b, hb⟩ := selectBuilderProgressive_isSome locked actionable mn [] []
            (fun pt => dget tm pt 0) st1.tickCount em sp0 hsp0
            (List.not_mem_nil sp0.id) (List.not_mem_nil sp0.id)
            (le_trans hmax hsp0max)
          rw [hb0] at hb
          exact absurd hb (by simp)
        | some b =>
          dsimp only
          obtain ⟨hbmem, _, _, hbbio⟩ := selectBuilderProgressive_some locked
            actionable mn [] [] (fun pt => dget tm pt 0) st1.tickCount em b hb0
          by_cases hpos : b.position = locked
          · rw [if_pos hpos, if_pos (le_trans hcost hbbio)]
            exact Or.inr ⟨b, locked, hbmem, rfl,
              Or.inl ⟨hpos, le_trans hcost hbbio, rfl⟩⟩
          · rw [if_neg hpos]
            exact Or.inr ⟨b, locked, hbmem, rfl, Or.inr ⟨hpos, rfl⟩⟩

theorem buildSecondSpawner_commit (gm : GameMessage) (myTeam : TeamInfo)
    (actionable : List Spore) (spawnerPts : List Point)
    (eba el tm : List (Point × Int)) (tv tow tb : Point → Int)
    (used bids : List String) (acts : List BotAction)
    (myTileCount totalTiles : Int) (st : BotState) (r : BuildResult)
    (hr : r = buildSecondSpawner gm myTeam actionable spawnerPts eba el tm tv tow tb
      used bids acts myTileCount totalTiles st) :
    (r.actions = acts ∧ r.builderIds = bids) ∨
    ∃ b site, b ∈ actionable ∧ r.builderIds = sInsert bids b.id ∧
      ((b.position = site ∧ myTeam.nextSpawnerCost ≤ b.biomass ∧
         r.actions = acts ++ [BotAction.sporeCreateSpawner b.id]) ∨
       (b.position ≠ site ∧ r.actions = acts ++ [BotAction.sporeMoveTo b.id site])) := by
  subst hr
  simp only [buildSecondSpawner]
  split
  · exact Or.inl ⟨rfl, rfl⟩
  · split
    · exact Or.inl ⟨rfl, rfl⟩
    · cases hsb : secondSpawnerShouldBuild myTeam myTileCount totalTiles st with
      | false =>
        rw [if_neg (by simp)]
        exact Or.inl ⟨rfl, rfl⟩
      | true =>
        rw [if_pos rfl]
        split
        · exact Or.inl ⟨rfl, rfl⟩
        · rename_i locked2 st1 heq
          cases hb2 : selectBuilderProgressive locked2 actionable
              (myTeam.nextSpawnerCost + 2) bids used (fun pt => dget tm pt 0)
              st1.tickCount false with
          | none =>
            exact Or.inl ⟨rfl, rfl⟩
          | some b2 =>
            dsimp only
            obtain ⟨hbmem, _, _, hbbio⟩ := selectBuilderProgressive_some locked2
              actionable (myTeam.nextSpawnerCost + 2) bids used
              (fun pt => dget tm pt 0) st1.tickCount false b2 hb2
            have hcost : myTeam.nextSpawnerCost ≤ b2.biomass := by omega
            by_cases hpos : b2.position = locked2
            · rw [if_pos hpos]
              exact Or.inr ⟨b2, locked2, hbmem, rfl, Or.inl ⟨hpos, hcost, rfl⟩⟩
            · rw [if_neg hpos]
              exact Or.inr ⟨b2, locked2, hbmem, rfl, Or.inr ⟨hpos, rfl⟩⟩

/-- The commit contract shared by both spawner-building phases: either the
phase leaves the action list and builder set unchanged, or it picked a builder
`b` among the actionable spores for a locked site, registered it, and emitted
exactly one action for it — a create when it already stands on the site (with
biomass covering the cost), a move-to-site otherwise. -/
def builderCommitSpec (spores : List Spore) (cost : Int) (bids0 : List String)
    (acts0 : List BotAction) (r : BuildResult) : Prop :=
  (r.actions = acts0 ∧ r.builderIds = bids0) ∨
  ∃ b site, b ∈ spores ∧ r.builderIds = sInsert bids0 b.id ∧
    ((b.position = site ∧ cost ≤ b.biomass ∧
       r.actions = acts0 ++ [BotAction.sporeCreateSpawner b.id]) ∨
     (b.position ≠ site ∧ r.actions = acts0 ++ [BotAction.sporeMoveTo b.id site]))

/-- C8: once a builder is chosen for a planned facility site, the phase emits a
create-facility action when the builder already stands on the locked site (its
biomass then covers the spawner cost, so the silent insufficient-biomass branch
of `_build_first_spawner` is unreachable with the empty `used_spores` set it is
called with), and a move-to-site action otherwise — for both the first and the
second spawner phase; in every other situation the phases emit nothing. -/
theorem claimC8 (gm : GameMessage) (myTeam : TeamInfo)
    (actionable : List Spore) (spawnerPts : List Point)
    (eba el tm : List (Point × Int)) (tv tow tb : Point → Int)
    (used2 bids1 bids2 : List String) (acts1 acts2 : List BotAction)
    (myTileCount totalTiles : Int) (st1 st2 : BotState) (r1 r2 : BuildResult)
    (hr1 : r1 = buildFirstSpawner gm myTeam actionable spawnerPts eba el tm
      tv tow tb [] bids1 acts1 st1)
    (hr2 : r2 = buildSecondSpawner gm myTeam actionable spawnerPts eba el tm
      tv tow tb used2 bids2 acts2 myTileCount totalTiles st2) :
    builderCommitSpec actionable myTeam.nextSpawnerCost bids1 acts1 r1 ∧
    builderCommitSpec actionable myTeam.nextSpawnerCost bids2 acts2 r2 := by
  unfold builderCommitSpec
  exact ⟨buildFirstSpawner_commit gm myTeam actionable spawnerPts eba el tm
      tv tow tb bids1 acts1 st1 r1 hr1,
    buildSecondSpawner_commit gm myTeam actionable spawnerPts eba el tm
      tv tow tb used2 bids2 acts2 myTileCount totalTiles st2 r2 hr2⟩

/-- Witness for C8 at concrete inputs. -/
theorem claimC8_witness :
    builderCommitSpec [] (TeamInfo.mk [] [] 0 0).nextSpawnerCost [] []
      (buildFirstSpawner ⟨1, 1, 2, 2, [], [], [], [], [], []⟩ ⟨[], [], 0, 0⟩
        [] [] [] [] [] (fun _ => 0) (fun _ => 0) (fun _ => 0) [] [] [] initBot) ∧
    builderCommitSpec [] (TeamInfo.mk [] [] 0 0).nextSpawnerCost [] []
      (buildSecondSpawner ⟨1, 1, 2, 2, [], [], [], [], [], []⟩ ⟨[], [], 0, 0⟩
        [] [] [] [] [] (fun _ => 0) (fun _ => 0) (fun _ => 0) [] [] [] 0 0
        initBot) :=
  claimC8 ⟨1, 1, 2, 2, [], [], [], [], [], []⟩ ⟨[], [], 0, 0⟩ [] [] [] [] []
    (fun _ => 0) (fun _ => 0) (fun _ => 0) [] [] [] [] [] 0 0 initBot initBot
    (buildFirstSpawner ⟨1, 1, 2, 2, [], [], [], [], [], []⟩ ⟨[], [], 0, 0⟩
      [] [] [] [] [] (fun _ => 0) (fun _ => 0) (fun _ => 0) [] [] [] initBot)
    (buildSecondSpawner ⟨1, 1, 2, 2, [], [], [], [], [], []⟩ ⟨[], [], 0, 0⟩
      [] [] [] [] [] (fun _ => 0) (fun _ => 0) (fun _ => 0) [] [] [] 0 0
      initBot)
    rfl rfl

/-! ### Claim C1 (at most one action per spore id and per spawner id) -/

theorem sporeIdsOf_append (a b : List BotAction) :
    sporeIdsOf (a ++ b) = sporeIdsOf a ++ sporeIdsOf b := by
  simp [sporeIdsOf]

theorem spawnerIdsOf_append (a b : List BotAction) :
    spawnerIdsOf (a ++ b) = spawnerIdsOf a ++ spawnerIdsOf b := by
  simp [spawnerIdsOf]

theorem sporeIdsOf_singleton {a : BotAction} {i : String}
    (ha : actionSporeId a = some i) : sporeIdsOf [a] = [i] := by
  simp [sporeIdsOf, List.filterMap_cons, ha]

theorem sporeIdsOf_append_none {acts : List BotAction} {a : BotAction}
    (ha : actionSporeId a = none) : sporeIdsOf (acts ++ [a]) = sporeIdsOf acts := by
  rw [sporeIdsOf_append]
  simp [sporeIdsOf, List.filterMap_cons, ha]

theorem spawnerIdsOf_append_none {acts : List BotAction} {a : BotAction}
    (ha : actionSpawnerId a = none) :
    spawnerIdsOf (acts ++ [a]) = spawnerIdsOf acts := by
  rw [spawnerIdsOf_append]
  simp [spawnerIdsOf, List.filterMap_cons, ha]

theorem spawnerIdsOf_append_some {acts : List BotAction} {a : BotAction}
    {i : String} (ha : actionSpawnerId a = some i) :
    spawnerIdsOf (acts ++ [a]) = spawnerIdsOf acts ++ [i] := by
  rw [spawnerIdsOf_append]
  simp [spawnerIdsOf, List.filterMap_cons, ha]

theorem sporeIdsOf_append_produce (acts : List BotAction) (i : String) (v : Int) :
    sporeIdsOf (acts ++ [BotAction.spawnerProduceSpore i v]) = sporeIdsOf acts :=
  sporeIdsOf_append_none rfl

theorem spawnerIdsOf_append_produce (acts : List BotAction) (i : String) (v : Int) :
    spawnerIdsOf (acts ++ [BotAction.spawnerProduceSpore i v]) =
      spawnerIdsOf acts ++ [i] :=
  spawnerIdsOf_append_some rfl

theorem spawnerIdsOf_append_move (acts : List BotAction) (i : String) (d : Point) :
    spawnerIdsOf (acts ++ [BotAction.sporeMove i d]) = spawnerIdsOf acts :=
  spawnerIdsOf_append_none rfl

theorem spawnerIdsOf_append_moveTo (acts : List BotAction) (i : String) (p : Point) :
    spawnerIdsOf (acts ++ [BotAction.sporeMoveTo i p]) = spawnerIdsOf acts :=
  spawnerIdsOf_append_none rfl

theorem spawnerIdsOf_append_split (acts : List BotAction) (i : String) (v : Int)
    (d : Point) :
    spawnerIdsOf (acts ++ [BotAction.sporeSplit i v d]) = spawnerIdsOf acts :=
  spawnerIdsOf_append_none rfl

/-- The `used_spores` discipline: the spore ids addressed by the committed
actions are pairwise distinct and all registered in `used_spores`. -/
def SInv (us : List String) (acts : List BotAction) : Prop :=
  (sporeIdsOf acts).Nodup ∧ ∀ i ∈ sporeIdsOf acts, i ∈ us

theorem SInv_nil (us : List String) : SInv us [] := by
  constructor <;> simp [sporeIdsOf]

theorem SInv_append {us : List String} {acts : List BotAction} (h : SInv us acts)
    {a : BotAction} {i : String} (ha : actionSporeId a = some i) (hni : i ∉ us) :
    SInv (sInsert us i) (acts ++ [a]) := by
  have hids : sporeIdsOf (acts ++ [a]) = sporeIdsOf acts ++ [i] := by
    rw [sporeIdsOf_append, sporeIdsOf_singleton ha]
  constructor
  · rw [hids, List.nodup_append]
    refine ⟨h.1, by simp, ?_⟩
    intro x hx hmem
    rw [List.mem_singleton] at hmem
    subst hmem
    exact hni (h.2 x hx)
  · intro j hj
    rw [hids] at hj
    rcases List.mem_append.1 hj with hj | hj
    · exact mem_sInsert_of_mem i (h.2 j hj)
    · rw [List.mem_singleton] at hj
      subst hj
      exact mem_sInsert_self us j

theorem SInv_congr {us : List String} {acts acts2 : List BotAction}
    (he : sporeIdsOf acts2 = sporeIdsOf acts) (h : SInv us acts) : SInv us acts2 := by
  refine ⟨?_, ?_⟩
  · rw [he]; exact h.1
  · intro i hi; rw [he] at hi; exact h.2 i hi

theorem foldl_pres {α β : Type} (P : β → Prop) (f : β → α → β)
    (hstep : ∀ b a, P b → P (f b a)) :
    ∀ (l : List α) (b : β), P b → P (List.foldl f b l)
  | [], _, hb => hb
  | a :: l, b, hb => foldl_pres P f hstep l (f b a) (hstep b a hb)

theorem buildFirstSpawner_SInv (gm : GameMessage) (myTeam : TeamInfo)
    (actionable : List Spore) (spawnerPts : List Point)
    (eba el tm : List (Point × Int)) (tv tow tb : Point → Int)
    (us bids : List String) (acts : List BotAction) (st : BotState)
    (r : BuildResult) (h : SInv us acts)
    (hr : r = buildFirstSpawner gm myTeam actionable spawnerPts eba el tm tv tow tb
      us bids acts st) :
    SInv r.usedSpores r.actions ∧ spawnerIdsOf r.actions = spawnerIdsOf acts := by
  subst hr
  simp only [buildFirstSpawner]
  by_cases hact : actionable = []
  · rw [if_pos hact]
    exact ⟨h, rfl⟩
  · rw [if_neg hact]
    rcases hdec : shouldBuildFirstSpawnerV8 st.mapType st.tickCount
        (actionable.length : Int) (pyMaxD (List.map (fun s => s.biomass) actionable) 0)
        myTeam.nextSpawnerCost (myTeam.spores.length : Int) 0 myTeam.nutrients with
      ⟨sb, mn, em⟩
    rw [hdec]
    dsimp only
    cases sb with
    | false =>
      rw [if_pos (by simp)]
      exact ⟨h, rfl⟩
    | true =>
      rw [if_neg (by simp)]
      split
      · exact ⟨h, rfl⟩
      · rename_i locked st1 heq
        have hcommit : ∀ (b : Spore) (rr : BuildResult), b.id ∉ us →
            rr = (if b.position = locked then
                if b.biomass ≥ myTeam.nextSpawnerCost then
                  (⟨sInsert us b.id, sInsert bids b.id,
                    acts ++ [BotAction.sporeCreateSpawner b.id],
                    { st1 with
                      builderTargetById :=
                        dset st1.builderTargetById b.id locked }⟩ : BuildResult)
                else ⟨us, sInsert bids b.id, acts,
                    { st1 with
                      builderTargetById := dset st1.builderTargetById b.id locked }⟩
              else ⟨sInsert us b.id, sInsert bids b.id,
                    acts ++ [BotAction.sporeMoveTo b.id locked],
                    { st1 with
                      builderTargetById :=
                        dset st1.builderTargetById b.id locked }⟩) →
            SInv rr.usedSpores rr.actions ∧
              spawnerIdsOf rr.actions = spawnerIdsOf acts := by
          intro b rr hbu hrr
          subst hrr
          by_cases hpos : b.position = locked
          · by_cases hbio : b.biomass ≥ myTeam.nextSpawnerCost
            · rw [if_pos hpos, if_pos hbio]
              exact ⟨SInv_append h rfl hbu, spawnerIdsOf_append_none rfl⟩
            · rw [if_pos hpos, if_neg hbio]
              exact ⟨h, rfl⟩
          · rw [if_neg hpos]
            exact ⟨SInv_append h rfl hbu, spawnerIdsOf_append_none rfl⟩
        cases hb0 : selectBuilderProgressive locked actionable mn [] us
            (fun pt => dget tm pt 0) st1.tickCount em with
        | some b =>
          dsimp only
          obtain ⟨_, _, hbu, _⟩ := selectBuilderProgressive_some locked
            actionable mn [] us (fun pt => dget tm pt 0) st1.tickCount em b hb0
          exact hcommit b _ hbu rfl
        | none =>
          dsimp only
          cases em with
          | false =>
            rw [if_neg (by simp)]
            dsimp only
            rw [if_neg (by simp)]
            exact ⟨h, rfl⟩
          | true =>
            rw [if_pos rfl]
            cases hb1 : selectBuilderProgressive locked actionable 2 [] us
                (fun pt => dget tm pt 0) st1.tickCount true with
            | some b =>
              dsimp only
              obtain ⟨_, _, hbu, _⟩ := selectBuilderProgressive_some locked
                actionable 2 [] us (fun pt => dget tm pt 0) st1.tickCount true b hb1
              exact hcommit b _ hbu rfl
            | none =>
              dsimp only
              rw [if_pos ⟨rfl, hact⟩]
              cases hb2 : pyMaxBy (fun s => s.biomass)
                  (actionable.filter (fun s => decide (s.id ∉ us))) with
              | none => exact ⟨h, rfl⟩
              | some b =>
                have hmem := pyMaxBy_mem (fun s => s.biomass)
                  (actionable.filter (fun s => decide (s.id ∉ us))) b hb2
                have hbu : b.id ∉ us := by
                  have := (List.mem_filter.mp hmem).2
                  simpa using this
                exact hcommit b _ hbu rfl

theorem buildSecondSpawner_SInv (gm : GameMessage) (myTeam : TeamInfo)
    (actionable : List Spore) (spawnerPts : List Point)
    (eba el tm : List (Point × Int)) (tv tow tb : Point → Int)
    (us bids : List String) (acts : List BotAction)
    (myTileCount totalTiles : Int) (st : BotState) (r : BuildResult)
    (h : SInv us acts)
    (hr : r = buildSecondSpawner gm myTeam actionable spawnerPts eba el tm tv tow tb
      us bids acts myTileCount totalTiles st) :
    SInv r.usedSpores r.actions ∧ spawnerIdsOf r.actions = spawnerIdsOf acts := by
  subst hr
  simp only [buildSecondSpawner]
  split
  · exact ⟨h, rfl⟩
  · split
    · exact ⟨h, rfl⟩
    · cases hsb : secondSpawnerShouldBuild myTeam myTileCount totalTiles st with
      | false =>
        rw [if_neg (by simp)]
        exact ⟨h, rfl⟩
      | true =>
        rw [if_pos rfl]
        split
        · exact ⟨h, rfl⟩
        · rename_i locked2 st1 heq
          cases hb2 : selectBuilderProgressive locked2 actionable
              (myTeam.nextSpawnerCost + 2) bids us (fun pt => dget tm pt 0)
              st1.tickCount false with
          | none => exact ⟨h, rfl⟩
          | some b2 =>
            dsimp only
            obtain ⟨_, _, hbu, _⟩ := selectBuilderProgressive_some locked2
              actionable (myTeam.nextSpawnerCost + 2) bids us
              (fun pt => dget tm pt 0) st1.tickCount false b2 hb2
            by_cases hpos : b2.position = locked2
            · rw [if_pos hpos]
              exact ⟨SInv_append h rfl hbu, spawnerIdsOf_append_none rfl⟩
            · rw [if_neg hpos]
              exact ⟨SInv_append h rfl hbu, spawnerIdsOf_append_none rfl⟩

theorem productionStep_inv (myTeam : TeamInfo) (tm eba : List (Point × Int))
    (w h mtc ng : Int) (isStag : Bool) (st : BotState) (res : Int)
    (A0 : List String) (r : ProdResult) (sp : Spawner)
    (hinv : sporeIdsOf r.actions = A0 ∧ (spawnerIdsOf r.actions).Nodup ∧
      ∀ i ∈ spawnerIdsOf r.actions, i ∈ r.usedSpawners) :
    sporeIdsOf (productionStep myTeam tm eba w h mtc ng isStag st res r sp).actions
        = A0 ∧
    (spawnerIdsOf
        (productionStep myTeam tm eba w h mtc ng isStag st res r sp).actions).Nodup ∧
    ∀ i ∈ spawnerIdsOf
        (productionStep myTeam tm eba w h mtc ng isStag st res r sp).actions,
      i ∈ (productionStep myTeam tm eba w h mtc ng isStag st res r sp).usedSpawners := by
  simp only [productionStep]
  split
  · exact hinv
  · rename_i hni
    have key : ∀ (v : Int),
        sporeIdsOf (r.actions ++ [BotAction.spawnerProduceSpore sp.id v]) = A0 ∧
        (spawnerIdsOf (r.actions ++ [BotAction.spawnerProduceSpore sp.id v])).Nodup ∧
        ∀ i ∈ spawnerIdsOf (r.actions ++ [BotAction.spawnerProduceSpore sp.id v]),
          i ∈ sInsert r.usedSpawners sp.id := by
      intro v
      refine ⟨(sporeIdsOf_append_produce r.actions sp.id v).trans hinv.1, ?_, ?_⟩
      · rw [spawnerIdsOf_append_produce r.actions sp.id v, List.nodup_append]
        refine ⟨hinv.2.1, by simp, ?_⟩
        intro x hx hmem
        rw [List.mem_singleton] at hmem
        subst hmem
        exact hni (hinv.2.2 _ hx)
      · intro i hi
        rw [spawnerIdsOf_append_produce r.actions sp.id v] at hi
        rcases List.mem_append.1 hi with hi | hi
        · exact mem_sInsert_of_mem _ (hinv.2.2 i hi)
        · rw [List.mem_singleton] at hi
          subst hi
          exact mem_sInsert_self _ _
    split
    · exact hinv
    · split
      · exact ⟨(key _).1, (key _).2.1, (key _).2.2⟩
      · exact hinv

theorem manageSpawnerProduction_inv (myTeam : TeamInfo) (spts : List Point)
    (tm eba : List (Point × Int)) (w h mtc ng : Int) (isStag : Bool)
    (acts : List BotAction) (st : BotState) (pr : ProdResult)
    (h0 : spawnerIdsOf acts = [])
    (hpr : pr = manageSpawnerProduction myTeam spts tm eba w h mtc ng isStag
      [] acts st) :
    sporeIdsOf pr.actions = sporeIdsOf acts ∧ (spawnerIdsOf pr.actions).Nodup := by
  subst hpr
  simp only [manageSpawnerProduction]
  have H := foldl_pres
    (fun (r : ProdResult) => sporeIdsOf r.actions = sporeIdsOf acts ∧
      (spawnerIdsOf r.actions).Nodup ∧ ∀ i ∈ spawnerIdsOf r.actions, i ∈ r.usedSpawners)
    (productionStep myTeam tm eba w h mtc ng isStag st
      (if totalSporeCountOr3 st ≤ 3 then 2
       else if myTeam.spawners.length ≥ 2 then 3 else 4))
    (fun b a hb => productionStep_inv myTeam tm eba w h mtc ng isStag st _ _ b a hb)
    myTeam.spawners ⟨[], acts, myTeam.nutrients⟩
    ⟨rfl, by rw [h0]; exact List.nodup_nil,
      by intro i hi; rw [h0] at hi; exact absurd hi (List.not_mem_nil i)⟩
  exact ⟨H.1, H.2.1⟩

theorem commitHunterActions_inv (tl : Nat → Int) (F0 : List String)
    (ts : List (Point × Int × String × Int)) :
    ∀ (r : HunterResult), SInv r.usedSpores r.actions →
      spawnerIdsOf r.actions = F0 →
      SInv (commitHunterActions tl ts r).usedSpores
          (commitHunterActions tl ts r).actions ∧
        spawnerIdsOf (commitHunterActions tl ts r).actions = F0 := by
  induction ts with
  | nil => exact fun r h hf => ⟨h, hf⟩
  | cons t rest ih =>
    intro r h hf
    unfold commitHunterActions
    split
    · exact ⟨h, hf⟩
    · rename_i hguard
      split
      · refine ih _ ?_ ?_
        · exact SInv_append h rfl (fun hc => hguard (Or.inr hc))
        · exact (spawnerIdsOf_append_moveTo _ _ _).trans hf
      · exact ih _ h hf

theorem attemptSplitLoop_inv (eba tm : List (Point × Int))
    (tv tow tb : Point → Int) (w h mid : Int) (bids : List String)
    (F0 : List String) (l : List Spore) :
    ∀ (r : SplitResult), SInv r.usedSpores r.actions →
      spawnerIdsOf r.actions = F0 →
      SInv (attemptSplitLoop eba tm tv tow tb w h mid bids l r).usedSpores
          (attemptSplitLoop eba tm tv tow tb w h mid bids l r).actions ∧
        spawnerIdsOf (attemptSplitLoop eba tm tv tow tb w h mid bids l r).actions
          = F0 := by
  induction l with
  | nil => exact fun r hr hf => ⟨hr, hf⟩
  | cons sp rest ih =>
    intro r hr hf
    simp only [attemptSplitLoop]
    split
    · exact ih r hr hf
    · rename_i hguard
      split
      · split
        · split
          · refine ⟨?_, ?_⟩
            · exact SInv_append hr rfl (fun hc => hguard (Or.inl hc))
            · exact (spawnerIdsOf_append_split _ _ _ _).trans hf
          · exact ih r hr hf
        · exact ih r hr hf
      · exact ih r hr hf

theorem attemptSplits_inv (myTeam : TeamInfo) (bigSpores : List Spore)
    (eba tm : List (Point × Int)) (tv tow tb : Point → Int)
    (w h mid : Int) (us bids : List String) (acts : List BotAction)
    (survival : Bool) (tl : Nat → Int) (k : Nat) (F0 : List String)
    (sr : SplitResult) (hr : SInv us acts) (hf : spawnerIdsOf acts = F0)
    (hsr : sr = attemptSplits myTeam bigSpores eba tm tv tow tb w h mid us bids
      acts survival tl k) :
    SInv sr.usedSpores sr.actions ∧ spawnerIdsOf sr.actions = F0 := by
  subst hsr
  simp only [attemptSplits]
  split
  · exact ⟨hr, hf⟩
  · split
    · exact ⟨hr, hf⟩
    · split
      · exact ⟨hr, hf⟩
      · exact attemptSplitLoop_inv eba tm tv tow tb w h mid bids F0 _
          ⟨k + 1, us, acts⟩ hr hf

theorem emergencyMergeLoop_inv (mySporePts : List (Point × Spore))
    (tm eba : List (Point × Int)) (tow tb : Point → Int) (w h mid : Int)
    (bids : List String) (tl : Nat → Int) (F0 : List String) (l : List Spore) :
    ∀ (r : MergeResult), SInv r.usedSpores r.actions →
      spawnerIdsOf r.actions = F0 →
      SInv (emergencyMergeLoop mySporePts tm eba tow tb w h mid bids tl l r).usedSpores
          (emergencyMergeLoop mySporePts tm eba tow tb w h mid bids tl l r).actions ∧
        spawnerIdsOf
            (emergencyMergeLoop mySporePts tm eba tow tb w h mid bids tl l r).actions
          = F0 := by
  induction l with
  | nil => exact fun r hr hf => ⟨hr, hf⟩
  | cons s rest ih =>
    intro r hr hf
    simp only [emergencyMergeLoop]
    split
    · exact ih _ hr hf
    · rename_i hguard
      repeat' split
      all_goals try exact ih _ hr hf
      all_goals
        refine ih _ ?_ ?_
      all_goals try exact SInv_append hr rfl (fun hc => hguard (Or.inr (Or.inl hc)))
      all_goals exact (spawnerIdsOf_append_move _ _ _).trans hf

theorem emergencyMerge_inv (actionableSorted mySpores : List Spore)
    (tm eba : List (Point × Int)) (tow tb : Point → Int) (w h mid : Int)
    (bids us : List String) (acts : List BotAction) (tl : Nat → Int) (k : Nat)
    (F0 : List String) (mr : MergeResult) (hr : SInv us acts)
    (hf : spawnerIdsOf acts = F0)
    (hmr : mr = emergencyMerge actionableSorted mySpores tm eba tow tb w h mid
      bids us acts tl k) :
    SInv mr.usedSpores mr.actions ∧ spawnerIdsOf mr.actions = F0 := by
  subst hmr
  simp only [emergencyMerge]
  split
  · exact ⟨hr, hf⟩
  · split
    · exact ⟨hr, hf⟩
    · exact emergencyMergeLoop_inv _ tm eba tow tb w h mid bids tl F0 _
        ⟨k + 1, us, acts⟩ hr hf

theorem movementLoop_inv (tl : Nat → Int) (ctx : MoveCtx) (F0 : List String)
    (l : List Spore) :
    ∀ (ms : MoveState), SInv ms.usedSpores ms.actions →
      spawnerIdsOf ms.actions = F0 →
      SInv (movementLoop tl ctx l ms).usedSpores (movementLoop tl ctx l ms).actions ∧
        spawnerIdsOf (movementLoop tl ctx l ms).actions = F0 := by
  induction l with
  | nil => exact fun ms h hf => ⟨h, hf⟩
  | cons sp rest ih =>
    intro ms h hf
    unfold movementLoop
    split
    · exact ⟨h, hf⟩
    · rcases movementStep_cases ctx { ms with k := ms.k + 1 } sp with
        ⟨ha, hu⟩ | ⟨hni, hu, hshape⟩
      · refine ih _ ?_ ?_
        · rw [ha, hu]
          exact h
        · rw [ha]
          exact hf
      · rcases hshape with ⟨d, hac, _⟩ | ⟨p, hac⟩
        · refine ih _ ?_ ?_
          · rw [hu, hac]
            exact SInv_append h rfl hni
          · rw [hac]
            exact (spawnerIdsOf_append_move _ _ _).trans hf
        · refine ih _ ?_ ?_
          · rw [hu, hac]
            exact SInv_append h rfl hni
          · rw [hac]
            exact (spawnerIdsOf_append_moveTo _ _ _).trans hf

/-- The uniqueness invariant carried through `get_next_move`: on an early
return, both id families of the returned list are duplicate-free; at the entry
of the movement phase, the committed actions satisfy the `used_spores`
discipline and their spawner ids are duplicate-free. -/
def StageInv : TickStage → Prop
  | .done acts _ => (sporeIdsOf acts).Nodup ∧ (spawnerIdsOf acts).Nodup
  | .beforeMovement _ ms =>
    SInv ms.usedSpores ms.actions ∧ (spawnerIdsOf ms.actions).Nodup

theorem pre_stageInv (tl : Nat → Int) (st0 : BotState) (gm : GameMessage) :
    StageInv (getNextMovePre tl st0 gm) := by
  unfold getNextMovePre
  lift_lets
  extract_lets st width height myTeamId myTeam nutrientGrid ownershipGrid biomassGrid
    st1 st2 tileValue tileOwner tileBiomass ep enemyBiomassAt enemyList neutralSpores
    myBiomassAt am srcSt st3 tm myTileCount nutrientGeneration st4 stg isStagnant st5
    threatMap spawnerPts myCenter lt laneTargets st6 penalty2Biomass actionableSpores
    bigSpores st7 survivalMode st8 t1 r1 t2 r2 t3 pr t4 softTargets hr defenderIds t5
    sr t6 actionableSorted mr t7 ctx
  have hr1eq : r1 = if ¬ (t1 ≤ 0) ∧ myTeam.spawners.length = 0 then
      buildFirstSpawner gm myTeam actionableSpores spawnerPts enemyBiomassAt enemyList
        threatMap tileValue tileOwner tileBiomass [] [] [] st8
    else ⟨[], [], [], st8⟩ := rfl
  have hS1 : SInv r1.usedSpores r1.actions ∧ spawnerIdsOf r1.actions = [] := by
    rw [hr1eq]
    split
    · exact buildFirstSpawner_SInv gm myTeam actionableSpores spawnerPts enemyBiomassAt
        enemyList threatMap tileValue tileOwner tileBiomass [] [] [] st8 _
        (SInv_nil []) rfl
    · exact ⟨SInv_nil [], rfl⟩
  have hr2eq : r2 = if ¬ (t2 ≤ 0) ∧ myTeam.spawners.length = 1 then
      buildSecondSpawner gm myTeam actionableSpores spawnerPts enemyBiomassAt enemyList
        threatMap tileValue tileOwner tileBiomass r1.usedSpores r1.builderIds r1.actions
        myTileCount (width * height) r1.st
    else r1 := rfl
  have hS2 : SInv r2.usedSpores r2.actions ∧ spawnerIdsOf r2.actions = [] := by
    rw [hr2eq]
    split
    · have hb := buildSecondSpawner_SInv gm myTeam actionableSpores spawnerPts
        enemyBiomassAt enemyList threatMap tileValue tileOwner tileBiomass
        r1.usedSpores r1.builderIds r1.actions myTileCount (width * height) r1.st _
        hS1.1 rfl
      exact ⟨hb.1, hb.2.trans hS1.2⟩
    · exact hS1
  have hprod : sporeIdsOf pr.actions = sporeIdsOf r2.actions ∧
      (spawnerIdsOf pr.actions).Nodup :=
    manageSpawnerProduction_inv myTeam spawnerPts threatMap enemyBiomassAt width height
      myTileCount nutrientGeneration isStagnant r2.actions r2.st pr hS2.2 rfl
  have hSpr : SInv r2.usedSpores pr.actions := SInv_congr hprod.1 hS2.1
  have hH : SInv hr.usedSpores hr.actions ∧
      spawnerIdsOf hr.actions = spawnerIdsOf pr.actions :=
    commitHunterActions_inv tl (spawnerIdsOf pr.actions) softTargets
      ⟨4, [], r2.usedSpores, pr.actions⟩ hSpr rfl
  have hSplit : SInv sr.usedSpores sr.actions ∧
      spawnerIdsOf sr.actions = spawnerIdsOf pr.actions :=
    attemptSplits_inv myTeam bigSpores enemyBiomassAt threatMap tileValue tileOwner
      tileBiomass width height myTeamId hr.usedSpores r2.builderIds hr.actions
      survivalMode tl (hr.k + 1) (spawnerIdsOf pr.actions) sr hH.1 hH.2 rfl
  have hMerge : SInv mr.usedSpores mr.actions ∧
      spawnerIdsOf mr.actions = spawnerIdsOf pr.actions :=
    emergencyMerge_inv actionableSorted myTeam.spores threatMap enemyBiomassAt
      tileOwner tileBiomass width height myTeamId r2.builderIds sr.usedSpores
      sr.actions tl (sr.k + 1) (spawnerIdsOf pr.actions) mr hSplit.1 hSplit.2 rfl
  split
  · exact ⟨hS2.1.1, by rw [hS2.2]; exact List.nodup_nil⟩
  · split
    · exact ⟨(SInv_congr hprod.1 hS2.1).1, hprod.2⟩
    · split
      · exact ⟨hH.1.1, by rw [hH.2]; exact hprod.2⟩
      · split
        · exact ⟨hSplit.1.1, by rw [hSplit.2]; exact hprod.2⟩
        · split
          · exact ⟨hMerge.1.1, by rw [hMerge.2]; exact hprod.2⟩
          · exact ⟨hMerge.1, by rw [hMerge.2]; exact hprod.2⟩

/-- C1: for every input snapshot, the action list returned by `get_next_move`
contains at most one action per spore id and at most one action per spawner id
(both extracted id lists are duplicate-free). -/
theorem claimC1 (tl : Nat → Int) (st0 : BotState) (gm : GameMessage) :
    (sporeIdsOf (getNextMove tl st0 gm).1).Nodup ∧
    (spawnerIdsOf (getNextMove tl st0 gm).1).Nodup := by
  have hpre := pre_stageInv tl st0 gm
  unfold getNextMove
  cases hgp : getNextMovePre tl st0 gm with
  | done acts st =>
    rw [hgp] at hpre
    exact hpre
  | beforeMovement ctx ms =>
    rw [hgp] at hpre
    have hpre2 : SInv ms.usedSpores ms.actions ∧ (spawnerIdsOf ms.actions).Nodup :=
      hpre
    have hm := movementLoop_inv tl ctx (spawnerIdsOf ms.actions) ctx.actionableSorted
      ms hpre2.1 rfl
    dsimp only
    simp only [manageSporeMovement]
    exact ⟨hm.1.1, by rw [hm.2]; exact hpre2.2⟩
